import Mathlib

/-!
Verification of the measurement-aggregation and cycle-synchronized actuation
pipeline of the perimeter-control simulation driver (src/src/main.py).

Shallow embedding conventions:
* Python floats (times, durations, occupancies) are modelled as rationals.
* SUMO traffic-light phases are records carrying the duration (the only field
  the source mutates) and an opaque state string (to witness that everything
  except the duration is preserved).
* The traci connection is modelled per traffic light as a response datum:
  either the intersection is gone (a TraCIException whose text contains
  "does not exist"), some other TraCIException occurred, the current program
  could not be resolved, or the light is running with a phase list, a current
  phase index and the time remaining to the next switch.
* Fallible detector queries are modelled as Except values; the sampler
  swallows the failure and yields the neutral reading 0, as the source does.
* Components of this repository that are outside src/ (the SumoSim stepping
  wrapper and the PerimeterController of algorithm.algo) are modelled from
  the spec where indicated.
-/

/-- One SUMO signal phase: the duration (seconds) plus an opaque remainder of
the phase record (the state string), which the orchestration code never
touches. -/
structure Phase where
  duration : ℚ
  state : String
deriving DecidableEq

/-- Default phase used only as the junk value of List.getD. -/
def phDefault : Phase := ⟨0, ""⟩

/-- A green-time plan for one intersection, main.py's new_times dictionary:
duration for the primary phases (key p) and the ordered list of durations for
the secondary phase groups (key s). -/
structure GreenTimes where
  p : ℚ
  s : List ℚ
deriving DecidableEq

/-- One secondary phase group of an intersection's PhaseInfo: the list stored
under phase_indices (the source only ever uses its first element). Indices
are integers as read from the configuration file, hence possibly negative. -/
structure SecondaryPhase where
  phase_indices : List ℤ
deriving DecidableEq

/-- An intersection's PhaseInfo: phase_info.p.phase_indices and the ordered
list of secondary groups phase_info.s, as consumed by
update_traffic_light_logic (main.py lines 93 and 99). -/
structure PhaseInfo where
  p_phase_indices : List ℤ
  s : List SecondaryPhase
deriving DecidableEq

/-- In-place mutation logic.phases(i).duration = d of main.py lines 96 and
102: replace the duration of the i-th phase, leaving every other phase and
the phase's remaining fields untouched; out-of-bounds positions leave the
list unchanged (the source guards the index before writing). -/
def setDuration : List Phase → ℕ → ℚ → List Phase
  | [], _, _ => []
  | ph :: rest, 0, d => { ph with duration := d } :: rest
  | ph :: rest, n+1, d => ph :: setDuration rest n d

/-- The primary-phase loop of update_traffic_light_logic (main.py lines
93-96): for each listed index, write the primary duration when the index is
inside the phase list, otherwise do nothing. -/
def update_main_phases (phases : List Phase) (idxs : List ℤ) (d : ℚ) : List Phase :=
  idxs.foldl
    (fun ph i => if 0 ≤ i ∧ i < (ph.length : ℤ) then setDuration ph i.toNat d else ph)
    phases

/-- The list comprehension of main.py line 99: the first phase index of every
secondary group whose phase_indices list is non-empty; empty groups are
filtered out before enumeration. -/
def secondary_heads (s : List SecondaryPhase) : List ℤ :=
  s.filterMap (fun s_phase => s_phase.phase_indices.head?)

/-- The secondary-phase loop of main.py lines 100-102, carrying the
enumerate counter i: the i-th surviving head receives the i-th secondary
duration, guarded by the index being in range and by i being within the
plan's secondary-duration list. -/
def update_secondary_loop (s_times : List ℚ) : List Phase → ℕ → List ℤ → List Phase
  | ph, _, [] => ph
  | ph, i, idx :: rest =>
    let ph' :=
      if 0 ≤ idx ∧ idx < (ph.length : ℤ) ∧ i < s_times.length then
        setDuration ph idx.toNat (s_times.getD i 0)
      else ph
    update_secondary_loop s_times ph' (i+1) rest

/-- update_traffic_light_logic of main.py lines 79-108: rewrite the primary
phases, then the secondary phases, of the full signal-program definition; the
caller then writes the whole resulting program back in one replacement. -/
def update_traffic_light_logic (phases : List Phase) (new_times : GreenTimes)
    (phase_info : PhaseInfo) : List Phase :=
  let afterMain := update_main_phases phases phase_info.p_phase_indices new_times.p
  update_secondary_loop new_times.s afterMain 0 (secondary_heads phase_info.s)

/-- Lookup in a Python dictionary modelled as an association list in
insertion order (dictionaries preserve insertion order and hold each key at
most once). -/
def alist_lookup {α : Type} : List (String × α) → String → Option α
  | [], _ => none
  | e :: rest, k => if e.1 = k then some e.2 else alist_lookup rest k

/-- Python dictionary assignment d(k) = v: replace the value in place when
the key is present, append the pair otherwise. -/
def alist_set {α : Type} : List (String × α) → String → α → List (String × α)
  | [], k, v => [(k, v)]
  | e :: rest, k, v => if e.1 = k then (k, v) :: rest else e :: alist_set rest k v

/-- Python dict.update(u): assign every pair of u, in order, into d. -/
def dict_update {α : Type} (d u : List (String × α)) : List (String × α) :=
  u.foldl (fun acc e => alist_set acc e.1 e.2) d

/-- Keys of a modelled dictionary. -/
def alist_keys {α : Type} (d : List (String × α)) : List String :=
  d.map Prod.fst

/-- The hand-off channel between the controller and the core, main.py's
Manager dictionary shared_dict: the activity flag is_active (absent is read
as False) and the per-intersection plan table under key green_times (none
models the key being absent). -/
structure SharedDict where
  is_active : Bool
  green_times : Option (List (String × GreenTimes))
deriving DecidableEq

/-- prepare_logic_update of main.py lines 114-130: when the shared dict is
active and carries a non-empty green_times table, merge that table into the
pending store pending_logic_updates (overwriting per key) and delete
green_times from the shared dict; otherwise change nothing. Returns the new
shared dict and the new pending store. -/
def prepare_logic_update (shared_dict : SharedDict)
    (pending_logic_updates : List (String × GreenTimes)) :
    SharedDict × List (String × GreenTimes) :=
  match shared_dict.is_active, shared_dict.green_times with
  | true, some green_times =>
    if green_times ≠ [] then
      ({ shared_dict with green_times := none },
        dict_update pending_logic_updates green_times)
    else (shared_dict, pending_logic_updates)
  | _, _ => (shared_dict, pending_logic_updates)

/-- Per-traffic-light response of the simulator during one actuation pass,
folding the traci calls of main.py lines 149-157 into one datum: absent
models a TraCIException whose text contains "does not exist" (line 179), err
any other TraCIException or unexpected exception (lines 176-182), noProgram
the case where no program logic matches the current program id (line 152),
and running carries the current program's phase list, the current phase
index (traci.trafficlight.getPhase, a natural number) and the time remaining
to the next switch. The source reads the phase list for the trigger from the
current program and for the rewrite from the first program definition; they
are modelled as the same program. -/
inductive IntersectionSim where
  | absent : IntersectionSim
  | err : IntersectionSim
  | noProgram : IntersectionSim
  | running : List Phase → ℕ → ℚ → IntersectionSim

/-- The static intersection configuration consumed by the actuator
(IntersectionConfigManager): traffic-light id resolution (none models a
falsy id, line 144) and PhaseInfo lookup (none models missing phase_info,
line 173). -/
structure IntersectionConfigManager where
  get_traffic_light_id : String → Option String
  get_phase_info : String → Option PhaseInfo

/-- apply_pending_updates_on_cycle_start of main.py lines 132-182, evaluated
on one simulation step: walk the pending entries in insertion order; for
each, resolve the traffic-light id (skip and retain on failure), query the
simulator (remove on "does not exist", retain on any other failure or when
the current program cannot be resolved), and when the light is in its last
phase with at most one step to the next switch, rewrite the program through
update_traffic_light_logic and drop the entry — unless the PhaseInfo is
missing, in which case the entry is retained. Returns the surviving pending
store and the list of whole-program write-backs performed this step, in
order. -/
def apply_pending_updates (config_manager : IntersectionConfigManager)
    (sim : String → IntersectionSim) (sim_step : ℚ) :
    List (String × GreenTimes) →
      List (String × GreenTimes) × List (String × List Phase)
  | [] => ([], [])
  | (int_id, plan) :: rest =>
    let tail := apply_pending_updates config_manager sim sim_step rest
    match config_manager.get_traffic_light_id int_id with
    | none => ((int_id, plan) :: tail.1, tail.2)
    | some tl_id =>
      match sim tl_id with
      | .absent => tail
      | .err => ((int_id, plan) :: tail.1, tail.2)
      | .noProgram => ((int_id, plan) :: tail.1, tail.2)
      | .running phases current_phase_index time_to_next_switch =>
        if (current_phase_index : ℤ) = (phases.length : ℤ) - 1 ∧
            time_to_next_switch ≤ sim_step then
          match config_manager.get_phase_info int_id with
          | some phase_info =>
            (tail.1, (tl_id, update_traffic_light_logic phases plan phase_info) :: tail.2)
          | none => ((int_id, plan) :: tail.1, tail.2)
        else ((int_id, plan) :: tail.1, tail.2)

/-- The per-detector occupancy query and accumulation loop of
get_sum_from_traci_detectors (main.py lines 194-204), as an Except-valued
fold: the first failing query aborts the whole computation, discarding every
partial per-detector result. -/
def get_sum_core (occ : String → Except Unit ℚ) : List String → ℚ → Except Unit ℚ
  | [], total_accumulation => .ok total_accumulation
  | det_id :: rest, total_accumulation =>
    match occ det_id with
    | .error e => .error e
    | .ok space_occupancy =>
      let road_length : ℚ := 80
      let average_length_of_vehicles : ℚ := 3
      let num_lane : ℚ := 1
      let accumulation :=
        road_length * (num_lane / (100 * average_length_of_vehicles)) * space_occupancy
      get_sum_core occ rest (total_accumulation + accumulation)

/-- get_sum_from_traci_detectors of main.py lines 189-208: sum the
per-detector accumulation estimates, returning 0 when any query raises a
TraCIException; the failure is never propagated (the function is total). -/
def get_sum_from_traci_detectors (occ : String → Except Unit ℚ)
    (detector_ids : List String) : ℚ :=
  match get_sum_core occ detector_ids 0 with
  | .ok total_accumulation => total_accumulation
  | .error _ => 0

/-- Python dictionary in-place modification of the value under a key
(queue_samples(int_id) mutations of main.py lines 324-329): keys are
unchanged; an absent key is a no-op (unreachable from the initialization,
which creates every key of solver_detectors). -/
def alist_modify {α : Type} : List (String × α) → String → (α → α) → List (String × α)
  | [], _, _ => []
  | e :: rest, k, f =>
    if e.1 = k then (e.1, f e.2) :: rest else e :: alist_modify rest k f

/-- Append a value to the i-th inner list, main.py line 329's
queue_samples(int_id)(s)(i).append; out-of-range i leaves everything
unchanged (the source guards i before appending). -/
def list_append_at : List (List ℚ) → ℕ → ℚ → List (List ℚ)
  | [], _, _ => []
  | l :: rest, 0, v => (l ++ [v]) :: rest
  | l :: rest, n+1, v => l :: list_append_at rest n v

/-- The per-intersection sample buffers of initialize_queue_samples (main.py
lines 211-220): the primary-phase buffer p and one buffer per secondary
phase group. -/
structure QueueSamples where
  p : List ℚ
  s : List (List ℚ)
deriving DecidableEq

/-- The aggregated queue measurement for one intersection (main.py line
345): primary mean and the ordered secondary means. -/
structure QueueMeans where
  p : ℚ
  s : List ℚ
deriving DecidableEq

/-- The detector layout of one intersection in solver_detectors: the
primary-phase queue detectors and, per secondary phase group, its queue
detectors (detector_config.json through DetectorConfigManager). -/
structure SolverPhases where
  p_queue_detectors : List String
  s_queue_detectors : List (List String)

/-- Modelled from the spec: the result of one call of the external
controller, PerimeterController.run_simulation_step of algorithm.algo
(a repository module not under src/). Per the spec the controller returns
the updated carried scalar qg_new and, as a side effect, publishes zero or
more green-time plans into the shared hand-off dict, whose post-call
contents are returned here. -/
structure ControllerResult where
  qg_new : ℚ
  shared_out : SharedDict

/-- The per-run environment of run_sumo_simulation: the fixed simulator step
length, the three cadence intervals, the detector groupings, the occupancy
responses (indexed by simulated time and detector id), the external
controller (modelled from the spec), the intersection configuration and the
per-traffic-light simulator responses during actuation (indexed by simulated
time). -/
structure LoopEnv where
  sim_step : ℚ
  sampling_interval_s : ℚ
  aggregation_interval_s : ℚ
  control_interval_s : ℚ
  algorithm_detector_ids : List String
  solver_detectors : List (String × SolverPhases)
  occ : ℚ → String → Except Unit ℚ
  controller : ℚ → ℚ → ℚ → List (String × QueueMeans) → SharedDict → ControllerResult
  config_manager : IntersectionConfigManager
  tls : ℚ → String → IntersectionSim

/-- The mutable state of the main simulation loop (main.py lines 286-307 and
the loop body 312-378), after any number of whole iterations: simulated
time, the controller state variables, the sample buffers, the latest
aggregated measurements, the three next-fire timestamps, the shared hand-off
dict, the pending-plan store, and the program write-backs performed by the
latest step's actuation pass. -/
structure LoopState where
  time : ℚ
  n_previous : ℚ
  qg_previous : ℚ
  n_samples : List ℚ
  queue_samples : List (String × QueueSamples)
  latest_aggregated_n : ℚ
  latest_aggregated_queue_lengths : List (String × QueueMeans)
  next_sampling_time : ℚ
  next_aggregation_time : ℚ
  next_control_time : ℚ
  shared : SharedDict
  pending_logic_updates : List (String × GreenTimes)
  last_writes : List (String × List Phase)
deriving DecidableEq

/-- initialize_queue_samples of main.py lines 211-220: one empty primary
buffer and one empty buffer per secondary phase group, per intersection of
solver_detectors. -/
def initialize_queue_samples (solver_detectors : List (String × SolverPhases)) :
    List (String × QueueSamples) :=
  solver_detectors.map (fun e =>
    (e.1, ⟨[], List.replicate e.2.s_queue_detectors.length []⟩))

/-- clear_samples of main.py lines 222-228: empty the network-wide buffer
and every per-intersection buffer in place, keeping keys and the number of
secondary buffers. -/
def clear_samples (n_samples : List ℚ) (queue_samples : List (String × QueueSamples)) :
    List ℚ × List (String × QueueSamples) :=
  ([], queue_samples.map (fun e => (e.1, ⟨[], e.2.s.map (fun _ => [])⟩)))

/-- The inner loop of main.py lines 326-329: append one sample per secondary
phase group of one intersection, carrying the enumerate counter. -/
def append_s_samples (occ : String → Except Unit ℚ) (int_id : String) :
    List (String × QueueSamples) → ℕ → List (List String) → List (String × QueueSamples)
  | qs, _, [] => qs
  | qs, i, s_detectors :: rest =>
    let s_sample := get_sum_from_traci_detectors occ s_detectors
    let qs' := alist_modify qs int_id (fun q =>
      if i < q.s.length then { q with s := list_append_at q.s i s_sample } else q)
    append_s_samples occ int_id qs' (i+1) rest

/-- The outer queue-sampling loop of main.py lines 320-329: per intersection
of solver_detectors, append one primary-phase sample and one sample per
secondary phase group. -/
def sample_intersections (occ : String → Except Unit ℚ) :
    List (String × QueueSamples) → List (String × SolverPhases) →
      List (String × QueueSamples)
  | qs, [] => qs
  | qs, (int_id, details) :: rest =>
    let p_sample := get_sum_from_traci_detectors occ details.p_queue_detectors
    let qs1 := alist_modify qs int_id (fun q => { q with p := q.p ++ [p_sample] })
    let qs2 := append_s_samples occ int_id qs1 0 details.s_queue_detectors
    sample_intersections occ qs2 rest

/-- The aggregation loop over queue_samples of main.py lines 342-345:
publish, per intersection, the mean of each buffer (0 for an empty buffer)
into latest_aggregated_queue_lengths by dictionary assignment. -/
def aggregate_queues :
    List (String × QueueMeans) → List (String × QueueSamples) →
      List (String × QueueMeans)
  | acc, [] => acc
  | acc, (int_id, data) :: rest =>
    let avg_p := if data.p ≠ [] then data.p.sum / (data.p.length : ℚ) else 0
    let avg_s := data.s.map (fun sb => if sb ≠ [] then sb.sum / (sb.length : ℚ) else 0)
    aggregate_queues (alist_set acc int_id ⟨avg_p, avg_s⟩) rest

/-- Modelled from the spec: sumo_sim.step() plus
traci.simulation.getTime() — the SumoSim wrapper is a repository module not
under src/; per the spec's simulator contract a step advances simulated time
by the fixed step duration. -/
def advance_step (env : LoopEnv) (st : LoopState) : LoopState :=
  { st with time := st.time + env.sim_step }

/-- Step 1 of the loop body (main.py lines 317-331): when the sampling
boundary is reached, append one network-wide sample and the per-intersection
queue samples, then advance the next sampling time by the fixed interval
(never re-based on the current time). -/
def sampling_phase (env : LoopEnv) (st : LoopState) : LoopState :=
  if st.time ≥ st.next_sampling_time then
    { st with
        n_samples := st.n_samples ++
          [get_sum_from_traci_detectors (env.occ st.time) env.algorithm_detector_ids],
        queue_samples :=
          sample_intersections (env.occ st.time) st.queue_samples env.solver_detectors,
        next_sampling_time := st.next_sampling_time + env.sampling_interval_s }
  else st

/-- Step 2 of the loop body (main.py lines 334-349): when the aggregation
boundary is reached, publish the mean of the network-wide buffer when it is
non-empty (an empty buffer leaves the previous published value in place),
publish the per-intersection queue means (0 for an empty buffer), clear
every buffer, and advance the next aggregation time by the fixed interval. -/
def aggregation_phase (env : LoopEnv) (st : LoopState) : LoopState :=
  if st.time ≥ st.next_aggregation_time then
    let latest_aggregated_n :=
      if st.n_samples ≠ [] then st.n_samples.sum / (st.n_samples.length : ℚ)
      else st.latest_aggregated_n
    let cleared := clear_samples st.n_samples st.queue_samples
    { st with
        latest_aggregated_n := latest_aggregated_n,
        latest_aggregated_queue_lengths :=
          aggregate_queues st.latest_aggregated_queue_lengths st.queue_samples,
        n_samples := cleared.1,
        queue_samples := cleared.2,
        next_aggregation_time := st.next_aggregation_time + env.aggregation_interval_s }
  else st

/-- Step 3 of the loop body (main.py lines 352-366): when the control
boundary is reached, call the external controller with the aggregated
measurements and the carried state, drain the hand-off dict into the
pending-plan store through prepare_logic_update, update the carried state
variables, and advance the next control time by the fixed interval. -/
def control_phase (env : LoopEnv) (st : LoopState) : LoopState :=
  if st.time ≥ st.next_control_time then
    let result := env.controller st.latest_aggregated_n st.n_previous st.qg_previous
      st.latest_aggregated_queue_lengths st.shared
    let drained := prepare_logic_update result.shared_out st.pending_logic_updates
    { st with
        shared := drained.1,
        pending_logic_updates := drained.2,
        qg_previous := result.qg_new,
        n_previous := st.latest_aggregated_n,
        next_control_time := st.next_control_time + env.control_interval_s }
  else st

/-- Step 4 of the loop body (main.py line 369): run the cycle-synchronized
actuation pass over the pending-plan store, unconditionally on every step. -/
def actuation_phase (env : LoopEnv) (st : LoopState) : LoopState :=
  let applied := apply_pending_updates env.config_manager (env.tls st.time) env.sim_step
    st.pending_logic_updates
  { st with
      pending_logic_updates := applied.1,
      last_writes := applied.2 }

/-- One whole iteration of the main simulation loop (main.py lines 312-369),
transliterated as one function: advance the simulator and read the time,
then the sampling check, the aggregation check, the control check and the
unconditional actuation pass, in the source's order. -/
def run_simulation_step_body (env : LoopEnv) (st0 : LoopState) : LoopState :=
  let st : LoopState := { st0 with time := st0.time + env.sim_step }
  let st : LoopState :=
    if st.time ≥ st.next_sampling_time then
      { st with
          n_samples := st.n_samples ++
            [get_sum_from_traci_detectors (env.occ st.time) env.algorithm_detector_ids],
          queue_samples :=
            sample_intersections (env.occ st.time) st.queue_samples env.solver_detectors,
          next_sampling_time := st.next_sampling_time + env.sampling_interval_s }
    else st
  let st : LoopState :=
    if st.time ≥ st.next_aggregation_time then
      let latest_aggregated_n :=
        if st.n_samples ≠ [] then st.n_samples.sum / (st.n_samples.length : ℚ)
        else st.latest_aggregated_n
      let cleared := clear_samples st.n_samples st.queue_samples
      { st with
          latest_aggregated_n := latest_aggregated_n,
          latest_aggregated_queue_lengths :=
            aggregate_queues st.latest_aggregated_queue_lengths st.queue_samples,
          n_samples := cleared.1,
          queue_samples := cleared.2,
          next_aggregation_time := st.next_aggregation_time + env.aggregation_interval_s }
    else st
  let st : LoopState :=
    if st.time ≥ st.next_control_time then
      let result := env.controller st.latest_aggregated_n st.n_previous st.qg_previous
        st.latest_aggregated_queue_lengths st.shared
      let drained := prepare_logic_update result.shared_out st.pending_logic_updates
      { st with
          shared := drained.1,
          pending_logic_updates := drained.2,
          qg_previous := result.qg_new,
          n_previous := st.latest_aggregated_n,
          next_control_time := st.next_control_time + env.control_interval_s }
    else st
  let applied := apply_pending_updates env.config_manager (env.tls st.time) env.sim_step
    st.pending_logic_updates
  { st with
      pending_logic_updates := applied.1,
      last_writes := applied.2 }

/-- The loop-preparation state of main.py lines 286-307: after the single
initial simulator step, the buffers are empty, the previous accumulation and
its published value are read once from the detectors, the next sampling time
is 0, the next aggregation time is one aggregation interval and the next
control time is one control interval; the shared dict and the pending store
start empty. -/
def initial_loop_state (env : LoopEnv) : LoopState :=
  let time := env.sim_step
  let n_previous :=
    get_sum_from_traci_detectors (env.occ time) env.algorithm_detector_ids
  { time := time
    n_previous := n_previous
    qg_previous := 0
    n_samples := []
    queue_samples := initialize_queue_samples env.solver_detectors
    latest_aggregated_n := n_previous
    latest_aggregated_queue_lengths := []
    next_sampling_time := 0
    next_aggregation_time := env.aggregation_interval_s
    next_control_time := env.control_interval_s
    shared := ⟨false, none⟩
    pending_logic_updates := []
    last_writes := [] }

/-- n successive iterations of the main simulation loop body. -/
def iterate_body (env : LoopEnv) : ℕ → LoopState → LoopState
  | 0, st => st
  | n+1, st => run_simulation_step_body env (iterate_body env n st)

/-- The state after n whole iterations of the main simulation loop, starting
from the loop-preparation state. -/
def run_loop (env : LoopEnv) (n : ℕ) : LoopState :=
  iterate_body env n (initial_loop_state env)

/-- A seven-phase signal program used for concrete scenarios (phase count 7,
last index 6). -/
def ph7 : List Phase :=
  [⟨33,"GGrr"⟩, ⟨3,"yyrr"⟩, ⟨33,"rrGG"⟩, ⟨3,"rryy"⟩, ⟨33,"GGGG"⟩, ⟨3,"yyyy"⟩, ⟨5,"rrrr"⟩]

/-- A concrete green-time plan: primary 30 s, one secondary duration 12 s. -/
def planJ1 : GreenTimes := ⟨30, [12]⟩

/-- A second concrete green-time plan for overwrite scenarios. -/
def plan2 : GreenTimes := ⟨40, [20]⟩

/-- A concrete PhaseInfo: primary phase index 2, one secondary group with
head index 5. -/
def piJ1 : PhaseInfo := ⟨[2], [⟨[5]⟩]⟩

/-- A configuration resolving intersection J1 to traffic light TL1 with
PhaseInfo piJ1. -/
def cfgJ1 : IntersectionConfigManager :=
  ⟨fun i => if i = "J1" then some "TL1" else none,
   fun i => if i = "J1" then some piJ1 else none⟩

/-- A simulator response map: TL1 runs ph7 in its last phase (index 6) with
half a second to the next switch; everything else faults. -/
def simTL1 : String → IntersectionSim :=
  fun tl => if tl = "TL1" then .running ph7 6 (1/2) else .err

/-- An environment whose controller publishes a plan for J1 at every control
tick and whose simulator holds TL1 at a cycle boundary. -/
def env4 : LoopEnv :=
  { sim_step := 1, sampling_interval_s := 10, aggregation_interval_s := 50,
    control_interval_s := 10, algorithm_detector_ids := [], solver_detectors := [],
    occ := fun _ _ => .ok 0,
    controller := fun _ _ _ _ shared =>
      ⟨0, { shared with is_active := true, green_times := some [("J1", planJ1)] }⟩,
    config_manager := cfgJ1, tls := fun _ => simTL1 }

/-- A loop state one step before a control boundary, with an empty pending
store and an empty hand-off channel. -/
def st4 : LoopState :=
  { time := 9, n_previous := 0, qg_previous := 0, n_samples := [], queue_samples := [],
    latest_aggregated_n := 0, latest_aggregated_queue_lengths := [],
    next_sampling_time := 10000, next_aggregation_time := 10000, next_control_time := 10,
    shared := ⟨false, none⟩, pending_logic_updates := [], last_writes := [] }

/-- A configuration resolving intersections Y and Z to traffic lights TLY
and TLZ, with no PhaseInfo. -/
def cfg7 : IntersectionConfigManager :=
  ⟨fun i => if i = "Y" then some "TLY" else (if i = "Z" then some "TLZ" else none),
   fun _ => none⟩

/-- A simulator response map where TLY no longer exists and every other
light faults with a generic error. -/
def sim7 : String → IntersectionSim :=
  fun tl => if tl = "TLY" then .absent else .err

/-- An environment with the spec's example cadences (sampling 10 s,
aggregation 50 s), a 1 s step, no detectors and an inert controller. -/
def env8 : LoopEnv :=
  { sim_step := 1, sampling_interval_s := 10, aggregation_interval_s := 50,
    control_interval_s := 100000, algorithm_detector_ids := [], solver_detectors := [],
    occ := fun _ _ => .ok 0,
    controller := fun _ _ _ _ shared => ⟨0, shared⟩,
    config_manager := ⟨fun _ => none, fun _ => none⟩, tls := fun _ _ => .err }

/-- Loop states reached in the env8 run: only the time, the network buffer,
the next sampling time, the next aggregation time and the published
aggregate vary. -/
def mkSt8 (t : ℚ) (ns : List ℚ) (nst na lan : ℚ) : LoopState :=
  { time := t, n_previous := 0, qg_previous := 0, n_samples := ns, queue_samples := [],
    latest_aggregated_n := lan, latest_aggregated_queue_lengths := [],
    next_sampling_time := nst, next_aggregation_time := na, next_control_time := 100000,
    shared := ⟨false, none⟩, pending_logic_updates := [], last_writes := [] }

/-- An environment whose sampling interval (1000 s) exceeds the aggregation
interval (50 s), one detector reading occupancy 105/4 (accumulation 7). -/
def env6 : LoopEnv :=
  { sim_step := 1, sampling_interval_s := 1000, aggregation_interval_s := 50,
    control_interval_s := 100000, algorithm_detector_ids := ["d0"], solver_detectors := [],
    occ := fun _ _ => .ok (105/4),
    controller := fun _ _ _ _ shared => ⟨0, shared⟩,
    config_manager := ⟨fun _ => none, fun _ => none⟩, tls := fun _ _ => .err }

/-- Loop states reached in the env6 run. -/
def mkSt6 (t : ℚ) (ns : List ℚ) (nst na lan : ℚ) : LoopState :=
  { time := t, n_previous := 7, qg_previous := 0, n_samples := ns, queue_samples := [],
    latest_aggregated_n := lan, latest_aggregated_queue_lengths := [],
    next_sampling_time := nst, next_aggregation_time := na, next_control_time := 100000,
    shared := ⟨false, none⟩, pending_logic_updates := [], last_writes := [] }

/-- A loop state at an aggregation boundary with a three-sample network
buffer and one monitored intersection. -/
def stW6 : LoopState :=
  { time := 50, n_previous := 0, qg_previous := 0, n_samples := [1, 2, 3],
    queue_samples := [("J1", ⟨[4], [[2, 4]]⟩)],
    latest_aggregated_n := 9, latest_aggregated_queue_lengths := [],
    next_sampling_time := 60, next_aggregation_time := 50, next_control_time := 100000,
    shared := ⟨false, none⟩, pending_logic_updates := [], last_writes := [] }

/-- An occupancy response map with one failing detector and occupancy 50 on
every other detector. -/
def occ5 : String → Except Unit ℚ :=
  fun d => if d = "det_bad" then .error () else .ok 50

theorem setDuration_length (ph : List Phase) (i : ℕ) (d : ℚ) :
    (setDuration ph i d).length = ph.length := by
  induction ph generalizing i with
  | nil => rfl
  | cons a rest ih =>
    cases i with
    | zero => rfl
    | succ n => simp [setDuration, ih]

theorem setDuration_getD_ne (ph : List Phase) (i j : ℕ) (d : ℚ) (h : j ≠ i) :
    (setDuration ph i d).getD j phDefault = ph.getD j phDefault := by
  induction ph generalizing i j with
  | nil => rfl
  | cons a rest ih =>
    cases i with
    | zero =>
      cases j with
      | zero => exact absurd rfl h
      | succ m => simp [setDuration]
    | succ n =>
      cases j with
      | zero => simp [setDuration]
      | succ m =>
        simp only [setDuration, List.getD_cons_succ]
        exact ih n m (fun hc => h (by simp [hc]))

theorem setDuration_getD_self (ph : List Phase) (i : ℕ) (d : ℚ) (h : i < ph.length) :
    (setDuration ph i d).getD i phDefault = ⟨d, (ph.getD i phDefault).state⟩ := by
  induction ph generalizing i with
  | nil => simp at h
  | cons a rest ih =>
    cases i with
    | zero => rfl
    | succ n =>
      simp only [setDuration, List.getD_cons_succ]
      exact ih n (by simpa using h)

theorem setDuration_state (ph : List Phase) (i j : ℕ) (d : ℚ) :
    ((setDuration ph i d).getD j phDefault).state = (ph.getD j phDefault).state := by
  by_cases hji : j = i
  · subst hji
    by_cases hj : j < ph.length
    · rw [setDuration_getD_self ph j d hj]
    · have hlen : (setDuration ph j d).length = ph.length := setDuration_length ph j d
      rw [List.getD_eq_default, List.getD_eq_default] <;> omega
  · rw [setDuration_getD_ne ph i j d hji]

theorem update_main_phases_cons (ph : List Phase) (i : ℤ) (l : List ℤ) (d : ℚ) :
    update_main_phases ph (i :: l) d =
      update_main_phases
        (if 0 ≤ i ∧ i < (ph.length : ℤ) then setDuration ph i.toNat d else ph) l d := by
  simp [update_main_phases]

theorem update_main_phases_length (ph : List Phase) (l : List ℤ) (d : ℚ) :
    (update_main_phases ph l d).length = ph.length := by
  induction l generalizing ph with
  | nil => rfl
  | cons a rest ih =>
    rw [update_main_phases_cons]
    split
    · rw [ih, setDuration_length]
    · rw [ih]

theorem update_main_phases_append (ph : List Phase) (l1 l2 : List ℤ) (d : ℚ) :
    update_main_phases ph (l1 ++ l2) d =
      update_main_phases (update_main_phases ph l1 d) l2 d := by
  simp [update_main_phases, List.foldl_append]

theorem update_main_phases_getD_ne (ph : List Phase) (l : List ℤ) (d : ℚ) (j : ℕ)
    (hj : (j : ℤ) ∉ l) :
    (update_main_phases ph l d).getD j phDefault = ph.getD j phDefault := by
  induction l generalizing ph with
  | nil => rfl
  | cons a rest ih =>
    rw [update_main_phases_cons]
    have hne : a ≠ (j : ℤ) := fun hc => hj (by simp [hc])
    rw [ih _ (fun hc => hj (List.mem_cons_of_mem _ hc))]
    split
    · next hg =>
      apply setDuration_getD_ne
      intro hc
      apply hne
      omega
    · rfl

theorem update_main_phases_state (ph : List Phase) (l : List ℤ) (d : ℚ) (j : ℕ) :
    ((update_main_phases ph l d).getD j phDefault).state = (ph.getD j phDefault).state := by
  induction l generalizing ph with
  | nil => rfl
  | cons a rest ih =>
    rw [update_main_phases_cons]
    split
    · rw [ih, setDuration_state]
    · rw [ih]

theorem update_main_phases_getD_mem (ph : List Phase) (l : List ℤ) (d : ℚ) (i : ℤ)
    (hmem : i ∈ l) (h0 : 0 ≤ i) (hlt : i < (ph.length : ℤ)) :
    (update_main_phases ph l d).getD i.toNat phDefault =
      ⟨d, (ph.getD i.toNat phDefault).state⟩ := by
  induction l generalizing ph with
  | nil => simp at hmem
  | cons a rest ih =>
    rw [update_main_phases_cons]
    by_cases hrest : i ∈ rest
    · have hlen : ∀ A : List Phase, A.length = ph.length →
          i < (A.length : ℤ) := by intro A hA; rw [hA]; exact hlt
      split
      · next hg =>
        rw [ih _ hrest (hlen _ (setDuration_length _ _ _)), setDuration_state]
      · exact ih _ hrest hlt
    · have hai : a = i := by
        rcases List.mem_cons.mp hmem with h | h
        · exact h.symm
        · exact absurd h hrest
      subst hai
      rw [if_pos ⟨h0, hlt⟩]
      have htn : ((a.toNat : ℤ)) = a := Int.toNat_of_nonneg h0
      rw [update_main_phases_getD_ne _ _ _ _ (by rw [htn]; exact hrest)]
      exact setDuration_getD_self ph a.toNat d (by omega)

theorem update_main_phases_skip (ph : List Phase) (l1 l2 : List ℤ) (i : ℤ) (d : ℚ)
    (h : ¬(0 ≤ i ∧ i < (ph.length : ℤ))) :
    update_main_phases ph (l1 ++ i :: l2) d = update_main_phases ph (l1 ++ l2) d := by
  rw [update_main_phases_append, update_main_phases_append, update_main_phases_cons]
  rw [if_neg (by rw [update_main_phases_length]; exact h)]

theorem update_secondary_loop_length (s : List ℚ) (l : List ℤ) (ph : List Phase) (i : ℕ) :
    (update_secondary_loop s ph i l).length = ph.length := by
  induction l generalizing ph i with
  | nil => rfl
  | cons idx rest ih =>
    rw [update_secondary_loop]
    split
    · rw [ih, setDuration_length]
    · rw [ih]

theorem update_secondary_loop_state (s : List ℚ) (l : List ℤ) (ph : List Phase)
    (i : ℕ) (j : ℕ) :
    ((update_secondary_loop s ph i l).getD j phDefault).state =
      (ph.getD j phDefault).state := by
  induction l generalizing ph i with
  | nil => rfl
  | cons idx rest ih =>
    rw [update_secondary_loop]
    split
    · rw [ih, setDuration_state]
    · rw [ih]

theorem update_secondary_loop_getD_ne (s : List ℚ) (l : List ℤ) (ph : List Phase)
    (i : ℕ) (j : ℕ)
    (hj : ∀ k, k < l.length → i + k < s.length → l.getD k 0 ≠ (j : ℤ)) :
    (update_secondary_loop s ph i l).getD j phDefault = ph.getD j phDefault := by
  induction l generalizing ph i with
  | nil => rfl
  | cons idx rest ih =>
    rw [update_secondary_loop]
    have htail : ∀ k, k < rest.length → (i+1) + k < s.length → rest.getD k 0 ≠ (j : ℤ) := by
      intro k hk hs
      have := hj (k+1) (by simpa using hk) (by omega)
      simpa using this
    rw [ih _ _ htail]
    split
    · next hg =>
      apply setDuration_getD_ne
      intro hc
      have h0 := hj 0 (by simp) (by omega)
      simp only [List.getD_cons_zero] at h0
      apply h0
      omega
    · rfl

theorem update_secondary_loop_getD_applied (s : List ℚ) (l : List ℤ) (ph : List Phase)
    (i : ℕ) (k : ℕ)
    (hk : k < l.length) (hs : i + k < s.length)
    (h0 : 0 ≤ l.getD k 0) (hlt : l.getD k 0 < (ph.length : ℤ))
    (hlater : ∀ k', k < k' → k' < l.length → i + k' < s.length →
      l.getD k' 0 ≠ l.getD k 0) :
    (update_secondary_loop s ph i l).getD (l.getD k 0).toNat phDefault =
      ⟨s.getD (i + k) 0, (ph.getD (l.getD k 0).toNat phDefault).state⟩ := by
  induction l generalizing ph i k with
  | nil => simp at hk
  | cons idx rest ih =>
    cases k with
    | zero =>
      simp only [List.getD_cons_zero] at h0 hlt hlater ⊢
      rw [update_secondary_loop]
      rw [if_pos ⟨h0, hlt, by omega⟩]
      have htn : ((idx.toNat : ℤ)) = idx := Int.toNat_of_nonneg h0
      rw [update_secondary_loop_getD_ne]
      · rw [Nat.add_zero, setDuration_getD_self ph idx.toNat (s.getD i 0) (by omega)]
      · intro k' hk' hs'
        have := hlater (k'+1) (by omega) (by simpa using hk') (by omega)
        simp only [List.getD_cons_succ] at this
        rw [htn]
        exact this
    | succ k =>
      simp only [List.getD_cons_succ] at h0 hlt hlater ⊢
      rw [update_secondary_loop]
      split
      · next hg =>
        rw [ih _ (i+1) k (by simpa using hk) (by omega) h0
            (by rw [setDuration_length]; exact hlt)
            (by intro k' hk' hl' hs'
                have := hlater (k'+1) (by omega) (by simpa using hl') (by omega)
                simpa using this)]
        rw [setDuration_state]
        rw [show i + 1 + k = i + (k+1) from by omega]
      · rw [ih _ (i+1) k (by simpa using hk) (by omega) h0 hlt
            (by intro k' hk' hl' hs'
                have := hlater (k'+1) (by omega) (by simpa using hl') (by omega)
                simpa using this)]
        rw [show i + 1 + k = i + (k+1) from by omega]

theorem update_secondary_loop_past_end (s : List ℚ) (l : List ℤ) (ph : List Phase)
    (i : ℕ) (h : s.length ≤ i) :
    update_secondary_loop s ph i l = ph := by
  induction l generalizing ph i with
  | nil => rfl
  | cons idx rest ih =>
    rw [update_secondary_loop]
    rw [if_neg (by omega)]
    exact ih ph (i+1) (by omega)

theorem update_secondary_loop_append (s : List ℚ) (l1 l2 : List ℤ) (ph : List Phase)
    (i : ℕ) :
    update_secondary_loop s ph i (l1 ++ l2) =
      update_secondary_loop s (update_secondary_loop s ph i l1) (i + l1.length) l2 := by
  induction l1 generalizing ph i with
  | nil => simp [update_secondary_loop]
  | cons idx rest ih =>
    simp only [List.cons_append, update_secondary_loop, List.append_eq]
    rw [ih]
    simp only [List.length_cons]
    rw [show i + 1 + rest.length = i + (rest.length + 1) from by omega]

theorem update_secondary_loop_skip (s : List ℚ) (l1 l2 : List ℤ) (idx : ℤ)
    (ph : List Phase) (i : ℕ) (h : ¬(0 ≤ idx ∧ idx < (ph.length : ℤ))) :
    update_secondary_loop s ph i (l1 ++ idx :: l2) =
      update_secondary_loop s (update_secondary_loop s ph i l1) (i + l1.length + 1) l2 := by
  rw [update_secondary_loop_append, update_secondary_loop]
  rw [if_neg (by rw [update_secondary_loop_length]; tauto)]

theorem update_traffic_light_logic_length (phases : List Phase) (nt : GreenTimes)
    (pi : PhaseInfo) :
    (update_traffic_light_logic phases nt pi).length = phases.length := by
  rw [update_traffic_light_logic, update_secondary_loop_length, update_main_phases_length]

theorem alist_lookup_set_self {α : Type} (d : List (String × α)) (k : String) (v : α) :
    alist_lookup (alist_set d k v) k = some v := by
  induction d with
  | nil => simp [alist_set, alist_lookup]
  | cons e rest ih =>
    by_cases he : e.1 = k
    · simp [alist_set, he, alist_lookup]
    · simp [alist_set, he, alist_lookup, ih]

theorem alist_lookup_set_ne {α : Type} (d : List (String × α)) (k k' : String) (v : α)
    (h : k' ≠ k) :
    alist_lookup (alist_set d k v) k' = alist_lookup d k' := by
  have hkk : ¬(k = k') := fun hc => h hc.symm
  induction d with
  | nil =>
    simp only [alist_set, alist_lookup, if_neg hkk]
  | cons e rest ih =>
    by_cases he : e.1 = k
    · rw [alist_set, if_pos he]
      rw [alist_lookup, if_neg hkk, alist_lookup, if_neg (by rw [he]; exact hkk)]
    · rw [alist_set, if_neg he, alist_lookup, alist_lookup, ih]

theorem mem_alist_keys_set {α : Type} (d : List (String × α)) (k x : String) (v : α) :
    x ∈ alist_keys (alist_set d k v) ↔ x ∈ alist_keys d ∨ x = k := by
  induction d with
  | nil => simp [alist_set, alist_keys]
  | cons e rest ih =>
    by_cases he : e.1 = k
    · subst he
      simp [alist_set, alist_keys]
      tauto
    · simp only [alist_set, if_neg he, alist_keys, List.map_cons, List.mem_cons] at *
      rw [ih]
      tauto

theorem alist_keys_set_nodup {α : Type} (d : List (String × α)) (k : String) (v : α)
    (h : (alist_keys d).Nodup) : (alist_keys (alist_set d k v)).Nodup := by
  induction d with
  | nil => simp [alist_set, alist_keys]
  | cons e rest ih =>
    simp only [alist_keys, List.map_cons, List.nodup_cons] at h
    by_cases he : e.1 = k
    · subst he
      simpa [alist_set, alist_keys, List.nodup_cons] using h
    · simp only [alist_set, if_neg he, alist_keys, List.map_cons, List.nodup_cons]
      refine ⟨?_, ih h.2⟩
      intro hc
      rcases (mem_alist_keys_set rest k e.1 v).mp hc with hm | hm
      · exact h.1 hm
      · exact he hm

theorem dict_update_nodup {α : Type} (d u : List (String × α))
    (h : (alist_keys d).Nodup) : (alist_keys (dict_update d u)).Nodup := by
  induction u generalizing d with
  | nil => exact h
  | cons e rest ih =>
    exact ih _ (alist_keys_set_nodup d e.1 e.2 h)

theorem dict_update_singleton {α : Type} (d : List (String × α)) (k : String) (v : α) :
    dict_update d [(k, v)] = alist_set d k v := rfl

theorem apply_pending_updates_append (config_manager : IntersectionConfigManager)
    (sim : String → IntersectionSim) (sim_step : ℚ)
    (l1 l2 : List (String × GreenTimes)) :
    apply_pending_updates config_manager sim sim_step (l1 ++ l2) =
      ((apply_pending_updates config_manager sim sim_step l1).1 ++
        (apply_pending_updates config_manager sim sim_step l2).1,
       (apply_pending_updates config_manager sim sim_step l1).2 ++
        (apply_pending_updates config_manager sim sim_step l2).2) := by
  induction l1 with
  | nil => simp [apply_pending_updates]
  | cons e rest ih =>
    obtain ⟨int_id, plan⟩ := e
    simp only [List.cons_append, apply_pending_updates]
    cases hT : config_manager.get_traffic_light_id int_id with
    | none => simp [hT, ih]
    | some tl_id =>
      cases hS : sim tl_id with
      | absent => simp [hT, hS, ih]
      | err => simp [hT, hS, ih]
      | noProgram => simp [hT, hS, ih]
      | running phases current_phase_index time_to_next_switch =>
        by_cases hc : (current_phase_index : ℤ) = (phases.length : ℤ) - 1 ∧
            time_to_next_switch ≤ sim_step
        · cases hP : config_manager.get_phase_info int_id with
          | some phase_info => simp [hT, hS, hc, hP, ih]
          | none => simp [hT, hS, hc, hP, ih]
        · simp [hT, hS, hc, ih]

theorem apply_pending_updates_singleton_no_tl (config_manager : IntersectionConfigManager)
    (sim : String → IntersectionSim) (sim_step : ℚ) (x : String) (plan : GreenTimes)
    (h : config_manager.get_traffic_light_id x = none) :
    apply_pending_updates config_manager sim sim_step [(x, plan)] = ([(x, plan)], []) := by
  simp [apply_pending_updates, h]

theorem apply_pending_updates_singleton_absent (config_manager : IntersectionConfigManager)
    (sim : String → IntersectionSim) (sim_step : ℚ) (x tl_id : String) (plan : GreenTimes)
    (htl : config_manager.get_traffic_light_id x = some tl_id)
    (hs : sim tl_id = .absent) :
    apply_pending_updates config_manager sim sim_step [(x, plan)] = ([], []) := by
  simp [apply_pending_updates, htl, hs]

theorem apply_pending_updates_singleton_err (config_manager : IntersectionConfigManager)
    (sim : String → IntersectionSim) (sim_step : ℚ) (x tl_id : String) (plan : GreenTimes)
    (htl : config_manager.get_traffic_light_id x = some tl_id)
    (hs : sim tl_id = .err) :
    apply_pending_updates config_manager sim sim_step [(x, plan)] = ([(x, plan)], []) := by
  simp [apply_pending_updates, htl, hs]

theorem apply_pending_updates_singleton_noProgram
    (config_manager : IntersectionConfigManager)
    (sim : String → IntersectionSim) (sim_step : ℚ) (x tl_id : String) (plan : GreenTimes)
    (htl : config_manager.get_traffic_light_id x = some tl_id)
    (hs : sim tl_id = .noProgram) :
    apply_pending_updates config_manager sim sim_step [(x, plan)] = ([(x, plan)], []) := by
  simp [apply_pending_updates, htl, hs]

theorem apply_pending_updates_singleton_not_triggered
    (config_manager : IntersectionConfigManager)
    (sim : String → IntersectionSim) (sim_step : ℚ) (x tl_id : String) (plan : GreenTimes)
    (phases : List Phase) (current_phase_index : ℕ) (time_to_next_switch : ℚ)
    (htl : config_manager.get_traffic_light_id x = some tl_id)
    (hs : sim tl_id = .running phases current_phase_index time_to_next_switch)
    (hc : ¬((current_phase_index : ℤ) = (phases.length : ℤ) - 1 ∧
      time_to_next_switch ≤ sim_step)) :
    apply_pending_updates config_manager sim sim_step [(x, plan)] = ([(x, plan)], []) := by
  simp [apply_pending_updates, htl, hs, hc]

theorem apply_pending_updates_singleton_triggered
    (config_manager : IntersectionConfigManager)
    (sim : String → IntersectionSim) (sim_step : ℚ) (x tl_id : String) (plan : GreenTimes)
    (phases : List Phase) (current_phase_index : ℕ) (time_to_next_switch : ℚ)
    (phase_info : PhaseInfo)
    (htl : config_manager.get_traffic_light_id x = some tl_id)
    (hs : sim tl_id = .running phases current_phase_index time_to_next_switch)
    (hc : (current_phase_index : ℤ) = (phases.length : ℤ) - 1 ∧
      time_to_next_switch ≤ sim_step)
    (hpi : config_manager.get_phase_info x = some phase_info) :
    apply_pending_updates config_manager sim sim_step [(x, plan)] =
      ([], [(tl_id, update_traffic_light_logic phases plan phase_info)]) := by
  simp [apply_pending_updates, htl, hs, hc, hpi]

theorem apply_pending_updates_singleton_no_info
    (config_manager : IntersectionConfigManager)
    (sim : String → IntersectionSim) (sim_step : ℚ) (x tl_id : String) (plan : GreenTimes)
    (phases : List Phase) (current_phase_index : ℕ) (time_to_next_switch : ℚ)
    (htl : config_manager.get_traffic_light_id x = some tl_id)
    (hs : sim tl_id = .running phases current_phase_index time_to_next_switch)
    (hc : (current_phase_index : ℤ) = (phases.length : ℤ) - 1 ∧
      time_to_next_switch ≤ sim_step)
    (hpi : config_manager.get_phase_info x = none) :
    apply_pending_updates config_manager sim sim_step [(x, plan)] = ([(x, plan)], []) := by
  simp [apply_pending_updates, htl, hs, hc, hpi]

theorem apply_pending_updates_keys_subset (config_manager : IntersectionConfigManager)
    (sim : String → IntersectionSim) (sim_step : ℚ)
    (pending : List (String × GreenTimes)) (x : String)
    (hx : x ∈ alist_keys (apply_pending_updates config_manager sim sim_step pending).1) :
    x ∈ alist_keys pending := by
  induction pending with
  | nil => simp [apply_pending_updates, alist_keys] at hx
  | cons e rest ih =>
    obtain ⟨int_id, plan⟩ := e
    simp only [apply_pending_updates] at hx
    simp only [alist_keys, List.map_cons, List.mem_cons]
    cases hT : config_manager.get_traffic_light_id int_id with
    | none =>
      simp only [hT] at hx
      simp only [alist_keys, List.map_cons, List.mem_cons] at hx
      rcases hx with hx | hx
      · exact Or.inl hx
      · exact Or.inr (ih hx)
    | some tl_id =>
      simp only [hT] at hx
      cases hS : sim tl_id with
      | absent =>
        simp only [hS] at hx
        exact Or.inr (ih hx)
      | err =>
        simp only [hS] at hx
        simp only [alist_keys, List.map_cons, List.mem_cons] at hx
        rcases hx with hx | hx
        · exact Or.inl hx
        · exact Or.inr (ih hx)
      | noProgram =>
        simp only [hS] at hx
        simp only [alist_keys, List.map_cons, List.mem_cons] at hx
        rcases hx with hx | hx
        · exact Or.inl hx
        · exact Or.inr (ih hx)
      | running phases current_phase_index time_to_next_switch =>
        simp only [hS] at hx
        by_cases hc : (current_phase_index : ℤ) = (phases.length : ℤ) - 1 ∧
            time_to_next_switch ≤ sim_step
        · rw [if_pos hc] at hx
          cases hP : config_manager.get_phase_info int_id with
          | some phase_info =>
            simp only [hP] at hx
            exact Or.inr (ih hx)
          | none =>
            simp only [hP] at hx
            simp only [alist_keys, List.map_cons, List.mem_cons] at hx
            rcases hx with hx | hx
            · exact Or.inl hx
            · exact Or.inr (ih hx)
        · rw [if_neg hc] at hx
          simp only [alist_keys, List.map_cons, List.mem_cons] at hx
          rcases hx with hx | hx
          · exact Or.inl hx
          · exact Or.inr (ih hx)

theorem get_sum_from_traci_detectors_nil (occ : String → Except Unit ℚ) :
    get_sum_from_traci_detectors occ [] = 0 := rfl

theorem get_sum_core_error (occ : String → Except Unit ℚ) (ids : List String)
    (d : String) (hd : d ∈ ids) (he : occ d = .error ()) (acc : ℚ) :
    get_sum_core occ ids acc = .error () := by
  induction ids generalizing acc with
  | nil => simp at hd
  | cons a rest ih =>
    rw [get_sum_core]
    cases ha : occ a with
    | error e => cases e; rfl
    | ok q =>
      rcases List.mem_cons.mp hd with h | h
      · subst h
        rw [ha] at he
        cases he
      · exact ih h _

theorem get_sum_from_traci_detectors_error (occ : String → Except Unit ℚ)
    (ids : List String) (h : ∃ d ∈ ids, occ d = .error ()) :
    get_sum_from_traci_detectors occ ids = 0 := by
  obtain ⟨d, hd, he⟩ := h
  rw [get_sum_from_traci_detectors, get_sum_core_error occ ids d hd he 0]

theorem get_sum_core_ok (occ : String → Except Unit ℚ) (f : String → ℚ)
    (ids : List String) (h : ∀ d ∈ ids, occ d = .ok (f d)) (acc : ℚ) :
    get_sum_core occ ids acc =
      .ok (acc + (ids.map (fun d => 80 * ((1 : ℚ) / (100 * 3)) * f d)).sum) := by
  induction ids generalizing acc with
  | nil => simp [get_sum_core]
  | cons a rest ih =>
    simp only [get_sum_core, h a (List.mem_cons_self a rest)]
    rw [ih (fun d hd => h d (List.mem_cons_of_mem a hd))]
    simp only [List.map_cons, List.sum_cons]
    refine congrArg Except.ok ?_
    ring

theorem get_sum_from_traci_detectors_ok (occ : String → Except Unit ℚ) (f : String → ℚ)
    (ids : List String) (h : ∀ d ∈ ids, occ d = .ok (f d)) :
    get_sum_from_traci_detectors occ ids =
      (ids.map (fun d => 80 * ((1 : ℚ) / (100 * 3)) * f d)).sum := by
  rw [get_sum_from_traci_detectors, get_sum_core_ok occ f ids h 0]
  simp

theorem iterate_body_add (env : LoopEnv) (m n : ℕ) (st : LoopState) :
    iterate_body env (m + n) st = iterate_body env n (iterate_body env m st) := by
  induction n with
  | zero => rfl
  | succ n ih => rw [Nat.add_succ, iterate_body, ih, iterate_body]

theorem run_simulation_step_body_quiet (env : LoopEnv) (st : LoopState)
    (hp : st.pending_logic_updates = []) (hw : st.last_writes = [])
    (hs : ¬(st.time + env.sim_step ≥ st.next_sampling_time))
    (ha : ¬(st.time + env.sim_step ≥ st.next_aggregation_time))
    (hc : ¬(st.time + env.sim_step ≥ st.next_control_time)) :
    run_simulation_step_body env st = { st with time := st.time + env.sim_step } := by
  obtain ⟨time, np, qg, ns, qs, lan, laq, nst, nat', nct, sh, pend, lw⟩ := st
  simp only at hp hw hs ha hc
  subst hp; subst hw
  simp only [run_simulation_step_body]
  rw [if_neg hs, if_neg ha, if_neg hc]
  simp [apply_pending_updates]

theorem iterate_body_quiet (env : LoopEnv) (n : ℕ) (st : LoopState)
    (hp : st.pending_logic_updates = []) (hw : st.last_writes = [])
    (hs : ∀ k : ℕ, k < n →
      ¬(st.time + ((k : ℚ) + 1) * env.sim_step ≥ st.next_sampling_time))
    (ha : ∀ k : ℕ, k < n →
      ¬(st.time + ((k : ℚ) + 1) * env.sim_step ≥ st.next_aggregation_time))
    (hc : ∀ k : ℕ, k < n →
      ¬(st.time + ((k : ℚ) + 1) * env.sim_step ≥ st.next_control_time)) :
    iterate_body env n st = { st with time := st.time + (n : ℚ) * env.sim_step } := by
  induction n with
  | zero =>
    simp only [iterate_body]
    rw [show st.time + ((0 : ℕ) : ℚ) * env.sim_step = st.time from by push_cast; ring]
  | succ n ih =>
    simp only [iterate_body]
    rw [ih (fun k hk => hs k (by omega)) (fun k hk => ha k (by omega))
        (fun k hk => hc k (by omega))]
    rw [run_simulation_step_body_quiet]
    · rw [show st.time + (n : ℚ) * env.sim_step + env.sim_step
          = st.time + (((n : ℕ) + 1 : ℕ) : ℚ) * env.sim_step from by push_cast; ring]
    · simpa using hp
    · simpa using hw
    · simp only
      have h := hs n (by omega)
      intro hcon
      apply h
      have heq : st.time + ((n : ℚ) + 1) * env.sim_step
          = st.time + (n : ℚ) * env.sim_step + env.sim_step := by ring
      rw [heq]; exact hcon
    · simp only
      have h := ha n (by omega)
      intro hcon
      apply h
      have heq : st.time + ((n : ℚ) + 1) * env.sim_step
          = st.time + (n : ℚ) * env.sim_step + env.sim_step := by ring
      rw [heq]; exact hcon
    · simp only
      have h := hc n (by omega)
      intro hcon
      apply h
      have heq : st.time + ((n : ℚ) + 1) * env.sim_step
          = st.time + (n : ℚ) * env.sim_step + env.sim_step := by ring
      rw [heq]; exact hcon

theorem env8_initial : initial_loop_state env8 = mkSt8 1 [] 0 50 0 := by
  norm_num [initial_loop_state, env8, mkSt8, initialize_queue_samples,
    get_sum_from_traci_detectors, get_sum_core]

theorem env8_event (t nst : ℚ) (ns : List ℚ) (hf : t + 1 ≥ nst) (hb : t + 1 < 50) :
    iterate_body env8 1 (mkSt8 t ns nst 50 0) =
      mkSt8 (t + 1) (ns ++ [0]) (nst + 10) 50 0 := by
  have hna : ¬(t + 1 ≥ (50 : ℚ)) := not_le.mpr hb
  have hnc : ¬(t + 1 ≥ (100000 : ℚ)) := not_le.mpr (by linarith)
  simp only [iterate_body]
  norm_num [run_simulation_step_body, mkSt8, env8, hf, hna, hnc,
    get_sum_from_traci_detectors, get_sum_core, sample_intersections,
    apply_pending_updates]

theorem env8_quiet (n : ℕ) (t nst na lan : ℚ) (ns : List ℚ)
    (h1 : t + (n : ℚ) < nst) (h2 : t + (n : ℚ) < na) (h3 : t + (n : ℚ) < 100000) :
    iterate_body env8 n (mkSt8 t ns nst na lan) = mkSt8 (t + (n : ℚ)) ns nst na lan := by
  rw [iterate_body_quiet env8 n (mkSt8 t ns nst na lan) rfl rfl
    (by intro k hk
        have hk' : (k : ℚ) + 1 ≤ (n : ℚ) := by exact_mod_cast hk
        simp only [mkSt8, env8]
        intro hcon
        nlinarith)
    (by intro k hk
        have hk' : (k : ℚ) + 1 ≤ (n : ℚ) := by exact_mod_cast hk
        simp only [mkSt8, env8]
        intro hcon
        nlinarith)
    (by intro k hk
        have hk' : (k : ℚ) + 1 ≤ (n : ℚ) := by exact_mod_cast hk
        simp only [mkSt8, env8]
        intro hcon
        nlinarith)]
  norm_num [mkSt8, env8]

theorem env8_run48 : run_loop env8 48 = mkSt8 49 [0, 0, 0, 0, 0] 50 50 0 := by
  rw [run_loop, show (48 : ℕ) = 1+7+1+9+1+9+1+9+1+9 from rfl]
  rw [iterate_body_add, iterate_body_add, iterate_body_add, iterate_body_add,
    iterate_body_add, iterate_body_add, iterate_body_add, iterate_body_add,
    iterate_body_add]
  rw [env8_initial]
  rw [env8_event 1 0 [] (by norm_num) (by norm_num)]
  rw [show ((1:ℚ)+1) = 2 from by norm_num, show ((0:ℚ)+10) = 10 from by norm_num]
  rw [env8_quiet 7 2 10 50 0 _ (by norm_num) (by norm_num) (by norm_num)]
  rw [show ((2:ℚ)+(7:ℕ)) = 9 from by norm_num]
  rw [env8_event 9 10 _ (by norm_num) (by norm_num)]
  rw [show ((9:ℚ)+1) = 10 from by norm_num, show ((10:ℚ)+10) = 20 from by norm_num]
  rw [env8_quiet 9 10 20 50 0 _ (by norm_num) (by norm_num) (by norm_num)]
  rw [show ((10:ℚ)+(9:ℕ)) = 19 from by norm_num]
  rw [env8_event 19 20 _ (by norm_num) (by norm_num)]
  rw [show ((19:ℚ)+1) = 20 from by norm_num, show ((20:ℚ)+10) = 30 from by norm_num]
  rw [env8_quiet 9 20 30 50 0 _ (by norm_num) (by norm_num) (by norm_num)]
  rw [show ((20:ℚ)+(9:ℕ)) = 29 from by norm_num]
  rw [env8_event 29 30 _ (by norm_num) (by norm_num)]
  rw [show ((29:ℚ)+1) = 30 from by norm_num, show ((30:ℚ)+10) = 40 from by norm_num]
  rw [env8_quiet 9 30 40 50 0 _ (by norm_num) (by norm_num) (by norm_num)]
  rw [show ((30:ℚ)+(9:ℕ)) = 39 from by norm_num]
  rw [env8_event 39 40 _ (by norm_num) (by norm_num)]
  rw [show ((39:ℚ)+1) = 40 from by norm_num, show ((40:ℚ)+10) = 50 from by norm_num]
  rw [env8_quiet 9 40 50 50 0 _ (by norm_num) (by norm_num) (by norm_num)]
  norm_num [mkSt8]

theorem env8_run49 : run_loop env8 49 = mkSt8 50 [] 60 100 0 := by
  rw [run_loop, show (49 : ℕ) = 48 + 1 from rfl, iterate_body_add]
  rw [show iterate_body env8 48 (initial_loop_state env8)
      = mkSt8 49 [0, 0, 0, 0, 0] 50 50 0 from env8_run48]
  simp only [iterate_body]
  norm_num [run_simulation_step_body, mkSt8, env8, get_sum_from_traci_detectors,
    get_sum_core, sample_intersections, clear_samples, aggregate_queues,
    apply_pending_updates, prepare_logic_update]

theorem env6_initial : initial_loop_state env6 = mkSt6 1 [] 0 50 7 := by
  norm_num [initial_loop_state, env6, mkSt6, initialize_queue_samples,
    get_sum_from_traci_detectors, get_sum_core]

theorem env6_event1 : iterate_body env6 1 (mkSt6 1 [] 0 50 7) = mkSt6 2 [7] 1000 50 7 := by
  simp only [iterate_body]
  norm_num [run_simulation_step_body, mkSt6, env6, get_sum_from_traci_detectors,
    get_sum_core, sample_intersections, apply_pending_updates]

theorem env6_quiet (n : ℕ) (t nst na lan : ℚ) (ns : List ℚ)
    (h1 : t + (n : ℚ) < nst) (h2 : t + (n : ℚ) < na) (h3 : t + (n : ℚ) < 100000) :
    iterate_body env6 n (mkSt6 t ns nst na lan) = mkSt6 (t + (n : ℚ)) ns nst na lan := by
  rw [iterate_body_quiet env6 n (mkSt6 t ns nst na lan) rfl rfl
    (by intro k hk
        have hk' : (k : ℚ) + 1 ≤ (n : ℚ) := by exact_mod_cast hk
        simp only [mkSt6, env6]
        intro hcon
        nlinarith)
    (by intro k hk
        have hk' : (k : ℚ) + 1 ≤ (n : ℚ) := by exact_mod_cast hk
        simp only [mkSt6, env6]
        intro hcon
        nlinarith)
    (by intro k hk
        have hk' : (k : ℚ) + 1 ≤ (n : ℚ) := by exact_mod_cast hk
        simp only [mkSt6, env6]
        intro hcon
        nlinarith)]
  norm_num [mkSt6, env6]

theorem env6_agg1 : iterate_body env6 1 (mkSt6 49 [7] 1000 50 7)
    = mkSt6 50 [] 1000 100 7 := by
  simp only [iterate_body]
  norm_num [run_simulation_step_body, mkSt6, env6, get_sum_from_traci_detectors,
    get_sum_core, sample_intersections, clear_samples, aggregate_queues,
    apply_pending_updates]

theorem env6_agg2 : iterate_body env6 1 (mkSt6 99 [] 1000 100 7)
    = mkSt6 100 [] 1000 150 7 := by
  simp only [iterate_body]
  norm_num [run_simulation_step_body, mkSt6, env6, get_sum_from_traci_detectors,
    get_sum_core, sample_intersections, clear_samples, aggregate_queues,
    apply_pending_updates]

theorem env6_run98 : run_loop env6 98 = mkSt6 99 [] 1000 100 7 := by
  rw [run_loop, show (98 : ℕ) = 1+47+1+49 from rfl]
  rw [iterate_body_add, iterate_body_add, iterate_body_add]
  rw [env6_initial, env6_event1]
  rw [env6_quiet 47 2 1000 50 7 _ (by norm_num) (by norm_num) (by norm_num)]
  rw [show ((2:ℚ)+(47:ℕ)) = 49 from by norm_num]
  rw [env6_agg1]
  rw [env6_quiet 49 50 1000 100 7 _ (by norm_num) (by norm_num) (by norm_num)]
  norm_num [mkSt6]

theorem env6_run99 : run_loop env6 99 = mkSt6 100 [] 1000 150 7 := by
  rw [run_loop, show (99 : ℕ) = 98 + 1 from rfl, iterate_body_add]
  rw [show iterate_body env6 98 (initial_loop_state env6)
      = mkSt6 99 [] 1000 100 7 from env6_run98]
  exact env6_agg2

theorem sampling_phase_next (env : LoopEnv) (st : LoopState) :
    (sampling_phase env st).next_sampling_time =
      if st.time ≥ st.next_sampling_time then
        st.next_sampling_time + env.sampling_interval_s
      else st.next_sampling_time := by
  rw [sampling_phase]
  split
  · rfl
  · rfl

theorem aggregation_phase_next (env : LoopEnv) (st : LoopState) :
    (aggregation_phase env st).next_aggregation_time =
      if st.time ≥ st.next_aggregation_time then
        st.next_aggregation_time + env.aggregation_interval_s
      else st.next_aggregation_time := by
  rw [aggregation_phase]
  split
  · rfl
  · rfl

theorem control_phase_next (env : LoopEnv) (st : LoopState) :
    (control_phase env st).next_control_time =
      if st.time ≥ st.next_control_time then
        st.next_control_time + env.control_interval_s
      else st.next_control_time := by
  rw [control_phase]
  split
  · rfl
  · rfl

theorem sampling_phase_time (env : LoopEnv) (st : LoopState) :
    (sampling_phase env st).time = st.time := by
  rw [sampling_phase]
  split
  · rfl
  · rfl

theorem aggregation_phase_time (env : LoopEnv) (st : LoopState) :
    (aggregation_phase env st).time = st.time := by
  rw [aggregation_phase]
  split
  · rfl
  · rfl

theorem control_phase_time (env : LoopEnv) (st : LoopState) :
    (control_phase env st).time = st.time := by
  rw [control_phase]
  split
  · rfl
  · rfl

theorem clear_samples_mem (ns : List ℚ) (qs : List (String × QueueSamples))
    (e : String × QueueSamples) (he : e ∈ (clear_samples ns qs).2) :
    e.2.p = [] ∧ ∀ sb ∈ e.2.s, sb = [] := by
  simp only [clear_samples, List.mem_map] at he
  obtain ⟨a, _, rfl⟩ := he
  constructor
  · rfl
  · intro sb hsb
    simp only [List.mem_map] at hsb
    obtain ⟨_, _, rfl⟩ := hsb
    rfl

theorem aggregate_queues_lookup_ne (acc : List (String × QueueMeans))
    (src : List (String × QueueSamples)) (k : String)
    (h : ∀ e ∈ src, e.1 ≠ k) :
    alist_lookup (aggregate_queues acc src) k = alist_lookup acc k := by
  induction src generalizing acc with
  | nil => rfl
  | cons e rest ih =>
    obtain ⟨int_id, data⟩ := e
    rw [aggregate_queues]
    rw [ih _ (fun e' he' => h e' (List.mem_cons_of_mem _ he'))]
    exact alist_lookup_set_ne _ _ _ _
      (fun hc => h (int_id, data) (List.mem_cons_self _ _) hc.symm)

theorem aggregate_queues_lookup (acc : List (String × QueueMeans))
    (src : List (String × QueueSamples)) (int_id : String) (data : QueueSamples)
    (hnd : (alist_keys src).Nodup) (hmem : (int_id, data) ∈ src) :
    alist_lookup (aggregate_queues acc src) int_id =
      some ⟨if data.p ≠ [] then data.p.sum / (data.p.length : ℚ) else 0,
            data.s.map (fun sb => if sb ≠ [] then sb.sum / (sb.length : ℚ) else 0)⟩ := by
  induction src generalizing acc with
  | nil => simp at hmem
  | cons e rest ih =>
    obtain ⟨k, q⟩ := e
    simp only [alist_keys, List.map_cons, List.nodup_cons] at hnd
    rcases List.mem_cons.mp hmem with hh | hh
    · injection hh with h1 h2
      subst h1; subst h2
      have hne : ∀ e' ∈ rest, e'.1 ≠ int_id := by
        intro e' he' hc
        apply hnd.1
        rw [← hc]
        exact List.mem_map_of_mem Prod.fst he'
      rw [aggregate_queues]
      rw [aggregate_queues_lookup_ne _ _ _ hne]
      exact alist_lookup_set_self _ _ _
    · rw [aggregate_queues]
      exact ih _ hnd.2 hh

theorem getD_mem_of_lt (l : List ℤ) (k : ℕ) (hk : k < l.length) : l.getD k 0 ∈ l := by
  induction l generalizing k with
  | nil => simp at hk
  | cons a rest ih =>
    cases k with
    | zero => simp
    | succ n =>
      simp only [List.getD_cons_succ]
      exact List.mem_cons_of_mem _ (ih n (by simpa using hk))

/-- C5: for every list of detector ids, get_sum_from_traci_detectors returns
0 when the list is empty, and returns 0 for the whole call — discarding all
partial per-detector results — whenever any underlying occupancy query
raises a simulator communication error, regardless of the other detectors'
readings; being a total function it never propagates the error to the
caller. -/
theorem c5_sampler_error_containment (occ : String → Except Unit ℚ)
    (detector_ids : List String) :
    (detector_ids = [] → get_sum_from_traci_detectors occ detector_ids = 0) ∧
    ((∃ d ∈ detector_ids, occ d = .error ()) →
      get_sum_from_traci_detectors occ detector_ids = 0) := by
  constructor
  · intro h
    subst h
    rfl
  · intro h
    exact get_sum_from_traci_detectors_error occ detector_ids h

/-- Witness for C5: a group with one good detector (occupancy 50) and one
failing detector sums to 0. -/
theorem c5_sampler_error_containment_witness :
    (∃ d ∈ ["det_good", "det_bad"], occ5 d = .error ()) ∧
    get_sum_from_traci_detectors occ5 ["det_good", "det_bad"] = 0 := by
  have hex : ∃ d ∈ ["det_good", "det_bad"], occ5 d = .error () := by
    refine ⟨"det_bad", by simp, ?_⟩
    rfl
  exact ⟨hex, (c5_sampler_error_containment occ5 ["det_good", "det_bad"]).2 hex⟩

/-- C9: for every detector group whose occupancy queries all succeed, the
sampler returns the sum over the group of
roadLength * (laneCount / (100 * avgVehicleLength)) * occupancy with
roadLength 80, laneCount 1, avgVehicleLength 3; occupancy 50 yields 40/3
(13.33...) for one detector and 80/3 (26.67...) for two. -/
theorem c9_accumulation_formula :
    (∀ (occ : String → Except Unit ℚ) (f : String → ℚ) (detector_ids : List String),
      (∀ d ∈ detector_ids, occ d = .ok (f d)) →
      get_sum_from_traci_detectors occ detector_ids =
        (detector_ids.map (fun d => 80 * ((1 : ℚ) / (100 * 3)) * f d)).sum) ∧
    get_sum_from_traci_detectors (fun _ => .ok 50) ["det1"] = 40 / 3 ∧
    get_sum_from_traci_detectors (fun _ => .ok 50) ["det1", "det2"] = 80 / 3 := by
  refine ⟨fun occ f ids h => get_sum_from_traci_detectors_ok occ f ids h, ?_, ?_⟩
  · norm_num [get_sum_from_traci_detectors, get_sum_core]
  · norm_num [get_sum_from_traci_detectors, get_sum_core]

/-- Witness for C9 at a single detector with occupancy 50. -/
theorem c9_accumulation_formula_witness :
    (∀ d ∈ ["det1"],
      (fun _ : String => (Except.ok 50 : Except Unit ℚ)) d = .ok ((fun _ => (50 : ℚ)) d)) ∧
    get_sum_from_traci_detectors (fun _ => .ok 50) ["det1"] =
      (["det1"].map (fun d => 80 * ((1 : ℚ) / (100 * 3)) * (fun _ => (50 : ℚ)) d)).sum :=
  ⟨fun _ _ => rfl,
   c9_accumulation_formula.1 (fun _ => .ok 50) (fun _ => 50) ["det1"] (fun _ _ => rfl)⟩

/-- C3: publishing plan p1 then plan p2 for the same intersection before
either is consumed leaves the pending store with at most one plan per
intersection and p2 as the stored (hence only ever applied) plan; draining
clears the channel's plan entry, so draining again changes nothing and the
same plan is never merged twice. -/
theorem c3_last_writer_wins (pending : List (String × GreenTimes)) (x : String)
    (p1 p2 : GreenTimes) (hnd : (alist_keys pending).Nodup) :
    (alist_keys (prepare_logic_update ⟨true, some [(x, p2)]⟩
      (prepare_logic_update ⟨true, some [(x, p1)]⟩ pending).2).2).Nodup ∧
    alist_lookup (prepare_logic_update ⟨true, some [(x, p2)]⟩
      (prepare_logic_update ⟨true, some [(x, p1)]⟩ pending).2).2 x = some p2 ∧
    (prepare_logic_update ⟨true, some [(x, p1)]⟩ pending).1.green_times = none ∧
    prepare_logic_update (prepare_logic_update ⟨true, some [(x, p1)]⟩ pending).1
        (prepare_logic_update ⟨true, some [(x, p1)]⟩ pending).2 =
      ((prepare_logic_update ⟨true, some [(x, p1)]⟩ pending).1,
       (prepare_logic_update ⟨true, some [(x, p1)]⟩ pending).2) := by
  have h1 : prepare_logic_update ⟨true, some [(x, p1)]⟩ pending
      = (⟨true, none⟩, alist_set pending x p1) := by
    simp [prepare_logic_update, dict_update]
  have h2 : prepare_logic_update ⟨true, some [(x, p2)]⟩ (alist_set pending x p1)
      = (⟨true, none⟩, alist_set (alist_set pending x p1) x p2) := by
    simp [prepare_logic_update, dict_update]
  simp only [h1, h2]
  refine ⟨?_, ?_, ?_, ?_⟩
  · exact alist_keys_set_nodup _ _ _ (alist_keys_set_nodup _ _ _ hnd)
  · exact alist_lookup_set_self _ _ _
  · trivial
  · trivial

/-- Witness for C3: starting from an empty store, planJ1 then plan2 for J1
leaves exactly plan2 stored and the channel drained. -/
theorem c3_last_writer_wins_witness :
    alist_lookup (prepare_logic_update ⟨true, some [("J1", plan2)]⟩
      (prepare_logic_update ⟨true, some [("J1", planJ1)]⟩ []).2).2 "J1" = some plan2 ∧
    (prepare_logic_update ⟨true, some [("J1", planJ1)]⟩
      ([] : List (String × GreenTimes))).1.green_times = none := by
  have h := c3_last_writer_wins [] "J1" planJ1 plan2 (by simp [alist_keys])
  exact ⟨h.2.1, h.2.2.1⟩

/-- C10: a primary phase index outside the current program's range, and a
secondary group with an empty phase-index list, are silently skipped by
update_traffic_light_logic — removing them changes nothing, so every
other listed index is still updated and no exception arises (the function is
total); a secondary group whose head index is out of range performs no write
while still occupying its positional slot, the remaining groups proceeding
with their original positions. -/
theorem c10_out_of_range_skipped (phases : List Phase) (new_times : GreenTimes) :
    (∀ (p1 p2 : List ℤ) (i : ℤ) (s1 s2 : List SecondaryPhase) (g : SecondaryPhase),
      ¬(0 ≤ i ∧ i < (phases.length : ℤ)) → g.phase_indices = [] →
      update_traffic_light_logic phases new_times ⟨p1 ++ i :: p2, s1 ++ g :: s2⟩ =
        update_traffic_light_logic phases new_times ⟨p1 ++ p2, s1 ++ s2⟩) ∧
    (∀ (s_times : List ℚ) (A : List Phase) (i : ℕ) (l1 l2 : List ℤ) (idx : ℤ),
      ¬(0 ≤ idx ∧ idx < (A.length : ℤ)) →
      update_secondary_loop s_times A i (l1 ++ idx :: l2) =
        update_secondary_loop s_times (update_secondary_loop s_times A i l1)
          (i + l1.length + 1) l2) := by
  constructor
  · intro p1 p2 i s1 s2 g hi hg
    simp only [update_traffic_light_logic]
    rw [update_main_phases_skip phases p1 p2 i new_times.p hi]
    have hh : secondary_heads (s1 ++ g :: s2) = secondary_heads (s1 ++ s2) := by
      simp [secondary_heads, List.filterMap_append, List.filterMap_cons, hg]
    rw [hh]
  · intro s_times A i l1 l2 idx hidx
    exact update_secondary_loop_skip s_times l1 l2 idx A i hidx

/-- Witness for C10: adding out-of-range primary index 9 and an empty
secondary group to piJ1 leaves the seven-phase program update unchanged. -/
theorem c10_out_of_range_skipped_witness :
    ¬(0 ≤ (9 : ℤ) ∧ (9 : ℤ) < (ph7.length : ℤ)) ∧
    update_traffic_light_logic ph7 planJ1 ⟨[2] ++ 9 :: [], [⟨[5]⟩] ++ ⟨[]⟩ :: []⟩ =
      update_traffic_light_logic ph7 planJ1 ⟨[2] ++ [], [⟨[5]⟩] ++ []⟩ := by
  have h9 : ¬(0 ≤ (9 : ℤ) ∧ (9 : ℤ) < (ph7.length : ℤ)) := by norm_num [ph7]
  exact ⟨h9, (c10_out_of_range_skipped ph7 planJ1).1 [2] [] 9 [⟨[5]⟩] [] ⟨[]⟩ h9 rfl⟩

/-- C1: for an intersection with an entry anywhere in the pending-plan
store whose traffic light resolves, whose simulator query succeeds and whose
PhaseInfo is present, the per-step actuation pass applies and consumes the
plan exactly when the current phase index equals the phase count minus 1 and
the time to the next switch is at most one simulation-step duration; when
that trigger fails — in particular for any earlier phase index, however
small the time to next switch — no program is written and the entry is
retained unchanged, the other entries being processed independently either
way. -/
theorem c1_actuator_trigger_iff (config_manager : IntersectionConfigManager)
    (sim : String → IntersectionSim) (sim_step : ℚ)
    (l1 l2 : List (String × GreenTimes)) (x tl_id : String) (plan : GreenTimes)
    (phases : List Phase) (current_phase_index : ℕ) (time_to_next_switch : ℚ)
    (phase_info : PhaseInfo)
    (htl : config_manager.get_traffic_light_id x = some tl_id)
    (hs : sim tl_id = .running phases current_phase_index time_to_next_switch)
    (hpi : config_manager.get_phase_info x = some phase_info) :
    (((current_phase_index : ℤ) = (phases.length : ℤ) - 1 ∧
        time_to_next_switch ≤ sim_step) →
      apply_pending_updates config_manager sim sim_step (l1 ++ (x, plan) :: l2) =
        ((apply_pending_updates config_manager sim sim_step l1).1 ++
          (apply_pending_updates config_manager sim sim_step l2).1,
         (apply_pending_updates config_manager sim sim_step l1).2 ++
          (tl_id, update_traffic_light_logic phases plan phase_info) ::
          (apply_pending_updates config_manager sim sim_step l2).2)) ∧
    (¬((current_phase_index : ℤ) = (phases.length : ℤ) - 1 ∧
        time_to_next_switch ≤ sim_step) →
      apply_pending_updates config_manager sim sim_step (l1 ++ (x, plan) :: l2) =
        ((apply_pending_updates config_manager sim sim_step l1).1 ++
          (x, plan) :: (apply_pending_updates config_manager sim sim_step l2).1,
         (apply_pending_updates config_manager sim sim_step l1).2 ++
          (apply_pending_updates config_manager sim sim_step l2).2)) := by
  constructor
  · intro hc
    rw [show l1 ++ (x, plan) :: l2 = l1 ++ ([(x, plan)] ++ l2) from by simp]
    rw [apply_pending_updates_append, apply_pending_updates_append]
    rw [apply_pending_updates_singleton_triggered config_manager sim sim_step x tl_id
      plan phases current_phase_index time_to_next_switch phase_info htl hs hc hpi]
    simp
  · intro hc
    rw [show l1 ++ (x, plan) :: l2 = l1 ++ ([(x, plan)] ++ l2) from by simp]
    rw [apply_pending_updates_append, apply_pending_updates_append]
    rw [apply_pending_updates_singleton_not_triggered config_manager sim sim_step x tl_id
      plan phases current_phase_index time_to_next_switch htl hs hc]
    simp

/-- Witness for C1: TL1 in its last phase (index 6 of 7) with half a second
left triggers, and the plan for J1 is applied and consumed. -/
theorem c1_actuator_trigger_iff_witness :
    ((6 : ℤ) = (ph7.length : ℤ) - 1 ∧ (1/2 : ℚ) ≤ 1) ∧
    apply_pending_updates cfgJ1 simTL1 1 ([] ++ ("J1", planJ1) :: []) =
      (([] : List (String × GreenTimes)),
       [("TL1", update_traffic_light_logic ph7 planJ1 piJ1)]) := by
  have hc : (6 : ℤ) = (ph7.length : ℤ) - 1 ∧ (1/2 : ℚ) ≤ 1 := by
    constructor
    · norm_num [ph7]
    · norm_num
  refine ⟨hc, ?_⟩
  have h := (c1_actuator_trigger_iff cfgJ1 simTL1 1 [] [] "J1" "TL1" planJ1 ph7 6 (1/2)
    piJ1 rfl rfl rfl).1 hc
  simpa [apply_pending_updates] using h

/-- C7: the per-step actuation pass handles faults per entry: evaluation
distributes over the store, so a fault on one entry never prevents the
remaining entries from being evaluated in the same step; an intersection the
simulator reports as no longer existing has its entry removed without any
program write; an unresolvable traffic-light id, a missing PhaseInfo at a
triggering cycle boundary, and any other simulator error all leave the entry
retained for retry with no write; the pass is a total function, so no
exception escapes. -/
theorem c7_per_entry_fault_isolation (config_manager : IntersectionConfigManager)
    (sim : String → IntersectionSim) (sim_step : ℚ) :
    (∀ l1 l2 : List (String × GreenTimes),
      apply_pending_updates config_manager sim sim_step (l1 ++ l2) =
        ((apply_pending_updates config_manager sim sim_step l1).1 ++
          (apply_pending_updates config_manager sim sim_step l2).1,
         (apply_pending_updates config_manager sim sim_step l1).2 ++
          (apply_pending_updates config_manager sim sim_step l2).2)) ∧
    (∀ (y tl_id : String) (plan : GreenTimes),
      config_manager.get_traffic_light_id y = some tl_id → sim tl_id = .absent →
      apply_pending_updates config_manager sim sim_step [(y, plan)] = ([], [])) ∧
    (∀ (y : String) (plan : GreenTimes),
      config_manager.get_traffic_light_id y = none →
      apply_pending_updates config_manager sim sim_step [(y, plan)] =
        ([(y, plan)], [])) ∧
    (∀ (y tl_id : String) (plan : GreenTimes) (phases : List Phase)
        (current_phase_index : ℕ) (time_to_next_switch : ℚ),
      config_manager.get_traffic_light_id y = some tl_id →
      sim tl_id = .running phases current_phase_index time_to_next_switch →
      ((current_phase_index : ℤ) = (phases.length : ℤ) - 1 ∧
        time_to_next_switch ≤ sim_step) →
      config_manager.get_phase_info y = none →
      apply_pending_updates config_manager sim sim_step [(y, plan)] =
        ([(y, plan)], [])) ∧
    (∀ (y tl_id : String) (plan : GreenTimes),
      config_manager.get_traffic_light_id y = some tl_id → sim tl_id = .err →
      apply_pending_updates config_manager sim sim_step [(y, plan)] =
        ([(y, plan)], [])) := by
  refine ⟨?_, ?_, ?_, ?_, ?_⟩
  · intro l1 l2
    exact apply_pending_updates_append config_manager sim sim_step l1 l2
  · intro y tl_id plan htl habs
    exact apply_pending_updates_singleton_absent config_manager sim sim_step y tl_id
      plan htl habs
  · intro y plan htl
    exact apply_pending_updates_singleton_no_tl config_manager sim sim_step y plan htl
  · intro y tl_id plan phases current_phase_index time_to_next_switch htl hr hc hpi
    exact apply_pending_updates_singleton_no_info config_manager sim sim_step y tl_id
      plan phases current_phase_index time_to_next_switch htl hr hc hpi
  · intro y tl_id plan htl herr
    exact apply_pending_updates_singleton_err config_manager sim sim_step y tl_id
      plan htl herr

/-- Witness for C7: Y (reported as no longer existing) is removed without a
write while Z (generic simulator error) is still evaluated in the same pass
and retained. -/
theorem c7_per_entry_fault_isolation_witness :
    apply_pending_updates cfg7 sim7 1 [("Y", planJ1), ("Z", plan2)] =
      ([("Z", plan2)], []) := by
  have h := c7_per_entry_fault_isolation cfg7 sim7 1
  have ha := h.1 [("Y", planJ1)] [("Z", plan2)]
  have hb := h.2.1 "Y" "TLY" planJ1 rfl rfl
  have he := h.2.2.2.2 "Z" "TLZ" plan2 rfl rfl
  rw [show ([("Y", planJ1), ("Z", plan2)] : List (String × GreenTimes))
      = [("Y", planJ1)] ++ [("Z", plan2)] from rfl]
  rw [ha, hb, he]
  simp

theorem alist_keys_append {α : Type} (a b : List (String × α)) :
    alist_keys (a ++ b) = alist_keys a ++ alist_keys b := by
  simp [alist_keys]

/-- C2: when the actuator trigger fires for an intersection with in-range,
non-overlapping configured phase indices, the program written back sets the
duration of every primary-listed phase to the plan's primary duration and
the duration of the k-th secondary head to the k-th secondary duration for
exactly as many secondary durations as the plan provides — a counter at or
past the plan's list performs no further write, leaving extra groups
unmodified — while every phase not so listed keeps its previous value; the
program is written back as one whole replacement, the intersection's entry
is afterwards absent from the pending store and all other entries are
processed independently of it. -/
theorem c2_trigger_write_effect (config_manager : IntersectionConfigManager)
    (sim : String → IntersectionSim) (sim_step : ℚ)
    (l1 l2 : List (String × GreenTimes)) (x tl_id : String) (plan : GreenTimes)
    (phases : List Phase) (current_phase_index : ℕ) (time_to_next_switch : ℚ)
    (phase_info : PhaseInfo)
    (htl : config_manager.get_traffic_light_id x = some tl_id)
    (hs : sim tl_id = .running phases current_phase_index time_to_next_switch)
    (hpi : config_manager.get_phase_info x = some phase_info)
    (hc : (current_phase_index : ℤ) = (phases.length : ℤ) - 1 ∧
      time_to_next_switch ≤ sim_step)
    (hx1 : x ∉ alist_keys l1) (hx2 : x ∉ alist_keys l2)
    (hmain : ∀ i ∈ phase_info.p_phase_indices, 0 ≤ i ∧ i < (phases.length : ℤ))
    (hsec : ∀ i ∈ secondary_heads phase_info.s, 0 ≤ i ∧ i < (phases.length : ℤ))
    (hdisj : ∀ i ∈ phase_info.p_phase_indices, ∀ k : ℕ,
      k < (secondary_heads phase_info.s).length → k < plan.s.length →
      (secondary_heads phase_info.s).getD k 0 ≠ i)
    (hnodup : ∀ k k' : ℕ, k < k' → k' < (secondary_heads phase_info.s).length →
      k' < plan.s.length →
      (secondary_heads phase_info.s).getD k' 0 ≠ (secondary_heads phase_info.s).getD k 0) :
    (∀ i ∈ phase_info.p_phase_indices,
      ((update_traffic_light_logic phases plan phase_info).getD i.toNat phDefault).duration
        = plan.p) ∧
    (∀ k : ℕ, k < (secondary_heads phase_info.s).length → k < plan.s.length →
      ((update_traffic_light_logic phases plan phase_info).getD
        ((secondary_heads phase_info.s).getD k 0).toNat phDefault).duration
        = plan.s.getD k 0) ∧
    (∀ (A : List Phase) (i : ℕ) (l : List ℤ), plan.s.length ≤ i →
      update_secondary_loop plan.s A i l = A) ∧
    (∀ j : ℕ, j < phases.length → ((j : ℤ) ∉ phase_info.p_phase_indices) →
      (∀ k : ℕ, k < (secondary_heads phase_info.s).length → k < plan.s.length →
        (secondary_heads phase_info.s).getD k 0 ≠ (j : ℤ)) →
      (update_traffic_light_logic phases plan phase_info).getD j phDefault
        = phases.getD j phDefault) ∧
    (apply_pending_updates config_manager sim sim_step (l1 ++ (x, plan) :: l2) =
      ((apply_pending_updates config_manager sim sim_step l1).1 ++
        (apply_pending_updates config_manager sim sim_step l2).1,
       (apply_pending_updates config_manager sim sim_step l1).2 ++
        (tl_id, update_traffic_light_logic phases plan phase_info) ::
        (apply_pending_updates config_manager sim sim_step l2).2)) ∧
    x ∉ alist_keys (apply_pending_updates config_manager sim sim_step
      (l1 ++ (x, plan) :: l2)).1 := by
  have h5 : apply_pending_updates config_manager sim sim_step (l1 ++ (x, plan) :: l2) =
      ((apply_pending_updates config_manager sim sim_step l1).1 ++
        (apply_pending_updates config_manager sim sim_step l2).1,
       (apply_pending_updates config_manager sim sim_step l1).2 ++
        (tl_id, update_traffic_light_logic phases plan phase_info) ::
        (apply_pending_updates config_manager sim sim_step l2).2) := by
    rw [show l1 ++ (x, plan) :: l2 = l1 ++ ([(x, plan)] ++ l2) from by simp]
    rw [apply_pending_updates_append, apply_pending_updates_append]
    rw [apply_pending_updates_singleton_triggered config_manager sim sim_step x tl_id
      plan phases current_phase_index time_to_next_switch phase_info htl hs hc hpi]
    simp
  refine ⟨?_, ?_, ?_, ?_, h5, ?_⟩
  · intro i hi
    obtain ⟨h0, hlt⟩ := hmain i hi
    simp only [update_traffic_light_logic]
    rw [update_secondary_loop_getD_ne plan.s (secondary_heads phase_info.s) _ 0 i.toNat
      (by intro k hk hsk
          have hne := hdisj i hi k hk (by omega)
          rw [Int.toNat_of_nonneg h0]
          exact hne)]
    rw [update_main_phases_getD_mem phases _ plan.p i hi h0 hlt]
  · intro k hk hks
    have hmem := getD_mem_of_lt (secondary_heads phase_info.s) k hk
    obtain ⟨h0, hlt⟩ := hsec _ hmem
    simp only [update_traffic_light_logic]
    rw [update_secondary_loop_getD_applied plan.s (secondary_heads phase_info.s) _ 0 k
      hk (by omega) h0 (by rw [update_main_phases_length]; exact hlt)
      (by intro k' hkk hk' hsk'
          exact hnodup k k' hkk hk' (by omega))]
    simp
  · intro A i l hi
    exact update_secondary_loop_past_end plan.s l A i hi
  · intro j hj hjm hjs
    simp only [update_traffic_light_logic]
    rw [update_secondary_loop_getD_ne plan.s (secondary_heads phase_info.s) _ 0 j
      (by intro k hk hsk
          exact hjs k hk (by omega))]
    exact update_main_phases_getD_ne phases _ plan.p j hjm
  · intro hmem
    rw [h5] at hmem
    simp only [alist_keys_append, List.mem_append] at hmem
    rcases hmem with hm | hm
    · exact hx1 (apply_pending_updates_keys_subset config_manager sim sim_step l1 x hm)
    · exact hx2 (apply_pending_updates_keys_subset config_manager sim sim_step l2 x hm)

/-- Witness for C2 at the spec's example: seven phases, primary index 2,
secondary head 5, plan primary 30 and secondary 12; phase 2 becomes 30,
phase 5 becomes 12, phase 6 is untouched, and the store keeps no entry for
J1. -/
theorem c2_trigger_write_effect_witness :
    ((update_traffic_light_logic ph7 planJ1 piJ1).getD (2 : ℤ).toNat phDefault).duration
      = planJ1.p ∧
    ((update_traffic_light_logic ph7 planJ1 piJ1).getD
      ((secondary_heads piJ1.s).getD 0 0).toNat phDefault).duration = planJ1.s.getD 0 0 ∧
    (update_traffic_light_logic ph7 planJ1 piJ1).getD 6 phDefault
      = ph7.getD 6 phDefault ∧
    apply_pending_updates cfgJ1 simTL1 1 ([] ++ ("J1", planJ1) :: []) =
      (([] : List (String × GreenTimes)),
       [("TL1", update_traffic_light_logic ph7 planJ1 piJ1)]) := by
  have h := c2_trigger_write_effect cfgJ1 simTL1 1 [] [] "J1" "TL1" planJ1 ph7 6 (1/2)
    piJ1 rfl rfl rfl
    (by constructor
        · norm_num [ph7]
        · norm_num)
    (by simp [alist_keys]) (by simp [alist_keys])
    (by intro i hi
        simp only [piJ1] at hi
        simp only [List.mem_singleton] at hi
        subst hi
        norm_num [ph7])
    (by intro i hi
        simp only [piJ1, secondary_heads, List.filterMap] at hi
        simp only [List.head?] at hi
        simp only [List.mem_singleton] at hi
        subst hi
        norm_num [ph7])
    (by intro i hi k hk hks
        simp only [piJ1] at hi
        simp only [List.mem_singleton] at hi
        subst hi
        have hk1 : k = 0 := by
          simp only [piJ1, secondary_heads, List.filterMap, List.head?] at hk
          simp only [List.length_singleton] at hk
          omega
        subst hk1
        simp [secondary_heads, piJ1])
    (by intro k k' hkk hk' hks'
        simp only [piJ1, secondary_heads, List.filterMap, List.head?] at hk'
        simp only [List.length_singleton] at hk'
        omega)
  refine ⟨?_, ?_, ?_, ?_⟩
  · exact h.1 2 (by simp [piJ1])
  · exact h.2.1 0 (by simp [secondary_heads, piJ1]) (by simp [planJ1])
  · have := h.2.2.2.1 6 (by norm_num [ph7]) (by simp [piJ1])
      (by intro k hk hks
          simp only [piJ1, secondary_heads, List.filterMap, List.head?] at hk ⊢
          simp only [List.length_singleton] at hk
          have hk0 : k = 0 := by omega
          subst hk0
          simp)
    simpa using this
  · exact h.2.2.2.2.1

/-- C4 (amended): within every iteration of the simulation loop, sampling,
aggregation, control and actuation execute in that fixed order — the body
equals their composition — and the actuation pass consumes the pending
store as left by the same step's control phase at the same step's simulated
time, so a plan drained during a step's control phase is already eligible
for actuation within that very step, subject to the cycle-boundary
condition. -/
theorem c4_fixed_order_same_step_eligibility (env : LoopEnv) (st : LoopState) :
    run_simulation_step_body env st =
      actuation_phase env (control_phase env (aggregation_phase env
        (sampling_phase env (advance_step env st)))) ∧
    (run_simulation_step_body env st).last_writes =
      (apply_pending_updates env.config_manager (env.tls (st.time + env.sim_step))
        env.sim_step
        ((control_phase env (aggregation_phase env (sampling_phase env
          (advance_step env st)))).pending_logic_updates)).2 := by
  refine ⟨rfl, ?_⟩
  have ht : (control_phase env (aggregation_phase env (sampling_phase env
      (advance_step env st)))).time = st.time + env.sim_step := by
    rw [control_phase_time, aggregation_phase_time, sampling_phase_time]
    rfl
  show (actuation_phase env (control_phase env (aggregation_phase env
    (sampling_phase env (advance_step env st))))).last_writes = _
  simp only [actuation_phase]
  rw [ht]

/-- Counterexample for C4 as stated: with an empty pending store and an
empty hand-off channel before the step, the plan published by this step's
control phase is applied by this same step's actuation pass (TL1's phase 2
becomes 30 and phase 5 becomes 12), so a plan computed in a step's control
phase can be actuated within that same step. -/
theorem c4_same_step_counterexample :
    st4.pending_logic_updates = [] ∧ st4.shared.green_times = none ∧
    (run_simulation_step_body env4 st4).last_writes =
      [("TL1", [⟨33,"GGrr"⟩, ⟨3,"yyrr"⟩, ⟨30,"rrGG"⟩, ⟨3,"rryy"⟩, ⟨33,"GGGG"⟩,
        ⟨12,"yyyy"⟩, ⟨5,"rrrr"⟩])] ∧
    (run_simulation_step_body env4 st4).pending_logic_updates = [] := by
  norm_num [run_simulation_step_body, env4, st4, cfgJ1, simTL1, planJ1, piJ1, ph7,
    prepare_logic_update, dict_update, alist_set, apply_pending_updates,
    update_traffic_light_logic, update_main_phases, update_secondary_loop,
    secondary_heads, setDuration, List.foldl]

/-- C6 (amended): at every aggregation event, each per-intersection queue
buffer's published measurement is the arithmetic mean of its contents, 0
when the buffer is empty, and the network-wide published measurement is the
mean of its buffer when non-empty — but when the network-wide buffer is
empty the previously published value is retained rather than set to 0; the
mean of a buffer (a, b, c) is (a+b+c)/3; every buffer has length 0
immediately after the event. -/
theorem c6_aggregation_means (env : LoopEnv) (st : LoopState)
    (hfire : st.time ≥ st.next_aggregation_time)
    (hnd : (alist_keys st.queue_samples).Nodup) :
    ((st.n_samples ≠ [] → (aggregation_phase env st).latest_aggregated_n
        = st.n_samples.sum / (st.n_samples.length : ℚ)) ∧
     (st.n_samples = [] → (aggregation_phase env st).latest_aggregated_n
        = st.latest_aggregated_n)) ∧
    (∀ a b c : ℚ, st.n_samples = [a, b, c] →
      (aggregation_phase env st).latest_aggregated_n = (a + b + c) / 3) ∧
    (∀ (int_id : String) (data : QueueSamples), (int_id, data) ∈ st.queue_samples →
      alist_lookup (aggregation_phase env st).latest_aggregated_queue_lengths int_id =
        some ⟨if data.p ≠ [] then data.p.sum / (data.p.length : ℚ) else 0,
              data.s.map (fun sb => if sb ≠ [] then sb.sum / (sb.length : ℚ) else 0)⟩) ∧
    (aggregation_phase env st).n_samples = [] ∧
    (∀ e ∈ (aggregation_phase env st).queue_samples,
      e.2.p = [] ∧ ∀ sb ∈ e.2.s, sb = []) := by
  refine ⟨⟨?_, ?_⟩, ?_, ?_, ?_, ?_⟩
  · intro h
    simp only [aggregation_phase, if_pos hfire]
    simp [h]
  · intro h
    simp only [aggregation_phase, if_pos hfire]
    simp [h]
  · intro a b c h
    simp only [aggregation_phase, if_pos hfire]
    simp only [h]
    rw [if_pos (show ([a, b, c] : List ℚ) ≠ [] from by simp)]
    norm_num
    ring
  · intro int_id data hmem
    simp only [aggregation_phase, if_pos hfire]
    exact aggregate_queues_lookup _ _ int_id data hnd hmem
  · simp [aggregation_phase, if_pos hfire, clear_samples]
  · intro e he
    simp only [aggregation_phase, if_pos hfire] at he
    exact clear_samples_mem st.n_samples st.queue_samples e he

/-- Witness for C6 at a concrete aggregation: buffer (1, 2, 3) publishes 2,
the queue buffers publish their means, and the network buffer is empty
afterwards. -/
theorem c6_aggregation_means_witness :
    (aggregation_phase env8 stW6).latest_aggregated_n = (1 + 2 + 3) / 3 ∧
    alist_lookup (aggregation_phase env8 stW6).latest_aggregated_queue_lengths "J1" =
      some ⟨if ([4] : List ℚ) ≠ [] then ([4] : List ℚ).sum / ((([4] : List ℚ).length : ℕ) : ℚ) else 0,
            ([[2, 4]] : List (List ℚ)).map
              (fun sb => if sb ≠ [] then sb.sum / ((sb.length : ℕ) : ℚ) else 0)⟩ ∧
    (aggregation_phase env8 stW6).n_samples = [] := by
  have h := c6_aggregation_means env8 stW6 (by norm_num [stW6]) (by simp [stW6, alist_keys])
  exact ⟨h.2.1 1 2 3 rfl, h.2.2.1 "J1" ⟨[4], [[2, 4]]⟩ (by simp [stW6]), h.2.2.2.1⟩

/-- Counterexample for C6 as stated: in a run whose sampling interval
exceeds the aggregation window, the second aggregation event fires with an
empty network-wide buffer and the published measurement stays at its
previous value 7 instead of the claimed 0. -/
theorem c6_empty_buffer_counterexample :
    (sampling_phase env6 (advance_step env6 (run_loop env6 98))).n_samples = [] ∧
    (sampling_phase env6 (advance_step env6 (run_loop env6 98))).time ≥
      (sampling_phase env6 (advance_step env6 (run_loop env6 98))).next_aggregation_time ∧
    (aggregation_phase env6 (sampling_phase env6 (advance_step env6
      (run_loop env6 98)))).latest_aggregated_n = 7 ∧
    ¬((aggregation_phase env6 (sampling_phase env6 (advance_step env6
      (run_loop env6 98)))).latest_aggregated_n = 0) ∧
    (run_loop env6 99).latest_aggregated_n = 7 := by
  have hadv : advance_step env6 (run_loop env6 98) = mkSt6 100 [] 1000 100 7 := by
    rw [env6_run98]
    norm_num [advance_step, mkSt6, env6]
  have hsamp : sampling_phase env6 (mkSt6 100 [] 1000 100 7)
      = mkSt6 100 [] 1000 100 7 := by
    rw [sampling_phase, if_neg (by norm_num [mkSt6])]
  have hagg : (aggregation_phase env6 (mkSt6 100 [] 1000 100 7)).latest_aggregated_n
      = 7 := by
    rw [aggregation_phase, if_pos (by norm_num [mkSt6])]
    norm_num [mkSt6]
  rw [hadv, hsamp]
  refine ⟨rfl, by norm_num [mkSt6], hagg, ?_, ?_⟩
  · rw [hagg]
    norm_num
  · rw [env6_run99]
    rfl

/-- C8 (amended): with sampling interval 10 s, aggregation interval 50 s, a
1 s step and no missed boundaries, exactly 6 samples — the initial sample
taken at the first loop step (the first sampling time is initialized to 0)
plus the samples at 10, 20, 30, 40 and 50 s, the coinciding boundary sample
at t = 50 landing before the aggregation of the same step — exist in the
network buffer at the instant the first aggregation fires, and the buffer is
empty immediately after; every next-fire time advances by its fixed interval
from its previous value when it fires and is never re-based on the current
time. -/
theorem c8_first_window_and_timers :
    (sampling_phase env8 (advance_step env8 (run_loop env8 48))).n_samples.length = 6 ∧
    (sampling_phase env8 (advance_step env8 (run_loop env8 48))).time ≥
      (sampling_phase env8 (advance_step env8 (run_loop env8 48))).next_aggregation_time ∧
    (run_loop env8 49).n_samples = [] ∧
    (∀ (env : LoopEnv) (st : LoopState),
      (sampling_phase env st).next_sampling_time =
        if st.time ≥ st.next_sampling_time then
          st.next_sampling_time + env.sampling_interval_s
        else st.next_sampling_time) ∧
    (∀ (env : LoopEnv) (st : LoopState),
      (aggregation_phase env st).next_aggregation_time =
        if st.time ≥ st.next_aggregation_time then
          st.next_aggregation_time + env.aggregation_interval_s
        else st.next_aggregation_time) ∧
    (∀ (env : LoopEnv) (st : LoopState),
      (control_phase env st).next_control_time =
        if st.time ≥ st.next_control_time then
          st.next_control_time + env.control_interval_s
        else st.next_control_time) := by
  have hadv : advance_step env8 (run_loop env8 48) = mkSt8 50 [0,0,0,0,0] 50 50 0 := by
    rw [env8_run48]
    norm_num [advance_step, mkSt8, env8]
  have hsamp : sampling_phase env8 (mkSt8 50 [0,0,0,0,0] 50 50 0)
      = mkSt8 50 [0,0,0,0,0,0] 60 50 0 := by
    rw [sampling_phase, if_pos (by norm_num [mkSt8])]
    norm_num [mkSt8, env8, get_sum_from_traci_detectors, get_sum_core,
      sample_intersections]
  rw [hadv, hsamp]
  refine ⟨by norm_num [mkSt8], by norm_num [mkSt8], ?_, sampling_phase_next,
    aggregation_phase_next, control_phase_next⟩
  rw [env8_run49]
  rfl

/-- Counterexample for C8 as stated: at the instant the first aggregation
fires (t = 50 s) the network buffer holds 6 samples, not 5. -/
theorem c8_five_samples_counterexample :
    (sampling_phase env8 (advance_step env8 (run_loop env8 48))).n_samples.length = 6 ∧
    (sampling_phase env8 (advance_step env8 (run_loop env8 48))).time ≥
      (sampling_phase env8 (advance_step env8 (run_loop env8 48))).next_aggregation_time ∧
    (sampling_phase env8 (advance_step env8 (run_loop env8 48))).next_aggregation_time =
      env8.aggregation_interval_s ∧
    ¬((sampling_phase env8 (advance_step env8 (run_loop env8 48))).n_samples.length
      = 5) := by
  have hadv : advance_step env8 (run_loop env8 48) = mkSt8 50 [0,0,0,0,0] 50 50 0 := by
    rw [env8_run48]
    norm_num [advance_step, mkSt8, env8]
  have hsamp : sampling_phase env8 (mkSt8 50 [0,0,0,0,0] 50 50 0)
      = mkSt8 50 [0,0,0,0,0,0] 60 50 0 := by
    rw [sampling_phase, if_pos (by norm_num [mkSt8])]
    norm_num [mkSt8, env8, get_sum_from_traci_detectors, get_sum_core,
      sample_intersections]
  rw [hadv, hsamp]
  refine ⟨by norm_num [mkSt8], by norm_num [mkSt8], by norm_num [mkSt8, env8],
    by norm_num [mkSt8]⟩

